import Mathlib

/-!
A shallow embedding of the HTML-to-plain-text extraction engine of
`src/import/html_extract_text.cpp` (namespaces `lily_of_the_valley` and
`html_utilities`), together with theorems checking the specification's
claims about it.

Conventions of the embedding:
* a wide character (`wchar_t`) is a natural-number code point;
* a wide-character buffer is a `List Nat`; a pointer into a buffer is an
  index; reading at or past the end of the list yields the NUL terminator
  `0`, matching NUL-terminated wide strings;
* a C++ function returning a possibly-null pointer becomes a function
  returning `Option Nat`;
* loops are written as fuel-indexed structural recursions so that every
  definition evaluates inside the kernel; each wrapper supplies a fuel
  bound that dominates the number of iterations the C++ loop can make.
-/

namespace HtmlExtract

/-- The code-point list denoted by a Lean string literal; wide characters
(`wchar_t`) are modelled as natural-number code points throughout. -/
def wstr (s : String) : List Nat := s.data.map Char.toNat

/-- Read the character at an index; positions at or past the end of the
buffer read as the NUL terminator `0`. -/
def wat (buf : List Nat) (i : Nat) : Nat := buf.getD i 0

/-- Slice of `n` characters starting at position `pos` (the span
`(pointer, length)` idiom of the C++ code). -/
def wslice (buf : List Nat) (pos n : Nat) : List Nat := (buf.drop pos).take n

/-- Model of the C library `towlower`, restricted to the Basic Latin range
that the scanner's fixed tag and entity names live in. -/
def towlowerW (c : Nat) : Nat := if 65 ≤ c ∧ c ≤ 90 then c + 32 else c

/-- Model of the C library `iswspace`: space, tab, line feed, vertical tab,
form feed, carriage return. -/
def iswspaceW (c : Nat) : Bool :=
  c = 32 || c = 9 || c = 10 || c = 11 || c = 12 || c = 13

/-- Case-sensitive match of a needle against the buffer at position `i`
(the `wcsncmp(p, needle, n) == 0` idiom, with `n` the needle's length). -/
def matchListAt (buf : List Nat) (i : Nat) : List Nat → Bool
  | [] => true
  | c :: cs => decide (wat buf i = c) && matchListAt buf (i + 1) cs

/-- Case-insensitive match of a needle against the buffer at position `i`
(the `strnicmp(p, needle, n) == 0` idiom, with `n` the needle's length). -/
def matchListAtCI (buf : List Nat) (i : Nat) : List Nat → Bool
  | [] => true
  | c :: cs => decide (towlowerW (wat buf i) = towlowerW c) && matchListAtCI buf (i + 1) cs

/-- Case-insensitive equality of two standalone wide strings
(the `stricmp(a, b) == 0` idiom). -/
def stricmpEq (a b : List Nat) : Bool := a.map towlowerW == b.map towlowerW

/-- Fuel-indexed body of `wcschr`: scan forward for character `c`,
stopping with `none` at the NUL terminator. -/
def wcschrF (buf : List Nat) (c : Nat) : Nat → Nat → Option Nat
  | 0, _ => none
  | fuel + 1, i =>
    if wat buf i = c then some i
    else if wat buf i = 0 then none
    else wcschrF buf c fuel (i + 1)

/-- `std::wcschr` from position `i`: first occurrence of `c`, or `none` if
the NUL terminator is reached first. -/
def wcschr (buf : List Nat) (i : Nat) (c : Nat) : Option Nat :=
  wcschrF buf c (buf.length + 1) i

/-- Fuel-indexed body of `wcsstr`/`stristr`: scan forward for a position
where `needle` matches (using the supplied matcher), stopping at NUL. -/
def strScanF (buf : List Nat) (needle : List Nat)
    (m : List Nat → Nat → List Nat → Bool) : Nat → Nat → Option Nat
  | 0, _ => none
  | fuel + 1, i =>
    if m buf i needle then some i
    else if wat buf i = 0 then none
    else strScanF buf needle m fuel (i + 1)

/-- `std::wcsstr` from position `i`: first case-sensitive occurrence of
`needle`, or `none` if the NUL terminator is reached first. -/
def wcsstr (buf : List Nat) (i : Nat) (needle : List Nat) : Option Nat :=
  strScanF buf needle matchListAt (buf.length + 1) i

/-- Modelled from the spec: `string_util::stristr`, the case-insensitive
`wcsstr` (the helper lives in a header that is not part of the provided
sources). -/
def stristr (buf : List Nat) (i : Nat) (needle : List Nat) : Option Nat :=
  strScanF buf needle matchListAtCI (buf.length + 1) i

/-- Modelled from the spec: `string_util::strnistr`, a case-insensitive
substring search bounded to a window of `n` characters; the match must fit
inside the window. -/
def strnistr (buf : List Nat) (i : Nat) (n : Nat) (needle : List Nat) : Option Nat :=
  match n with
  | 0 => none
  | m + 1 =>
    if needle.length ≤ m + 1 && matchListAtCI buf i needle then some i
    else strnistr buf (i + 1) m needle

/-- Modelled from the spec: `string_util::strncspn`, the length of the
longest span (at most `n`) of characters at `i` drawn from outside the
reject set. -/
def strncspn (buf : List Nat) (i : Nat) (rejects : List Nat) : Nat → Nat
  | 0 => 0
  | n + 1 =>
    if wat buf i ∈ rejects then 0
    else strncspn buf (i + 1) rejects n + 1

/-- Fuel-indexed body of `strcspn_pointer`. -/
def strcspnPointerF (buf : List Nat) (accepts : List Nat) : Nat → Nat → Option Nat
  | 0, _ => none
  | fuel + 1, i =>
    if wat buf i = 0 then none
    else if wat buf i ∈ accepts then some i
    else strcspnPointerF buf accepts fuel (i + 1)

/-- Modelled from the spec: `string_util::strcspn_pointer`, a pointer to
the first character drawn from the accept set, or `none` if the NUL
terminator is reached first. -/
def strcspn_pointer (buf : List Nat) (i : Nat) (accepts : List Nat) : Option Nat :=
  strcspnPointerF buf accepts (buf.length + 1) i

/-- Modelled from the spec: `string_util::strnchr`, the first occurrence of
`c` within a window of `n` characters, stopping at NUL. -/
def strnchr (buf : List Nat) (i : Nat) (c : Nat) : Nat → Option Nat
  | 0 => none
  | n + 1 =>
    if wat buf i = 0 then none
    else if wat buf i = c then some i
    else strnchr buf (i + 1) c n

/-- Fuel-indexed body of the decimal parser. -/
def atoiF (buf : List Nat) : Nat → Nat → Nat → Nat
  | 0, _, acc => acc
  | fuel + 1, i, acc =>
    if 48 ≤ wat buf i ∧ wat buf i ≤ 57 then
      atoiF buf fuel (i + 1) (acc * 10 + (wat buf i - 48))
    else acc

/-- Modelled from the spec: `string_util::atoi`, parsing the maximal run of
decimal digits starting at `i` (zero when there is none). -/
def atoiW (buf : List Nat) (i : Nat) : Nat := atoiF buf (buf.length + 1) i 0

/-- Value of a hexadecimal digit, or `none`. -/
def hexVal (c : Nat) : Option Nat :=
  if 48 ≤ c ∧ c ≤ 57 then some (c - 48)
  else if 97 ≤ c ∧ c ≤ 102 then some (c - 87)
  else if 65 ≤ c ∧ c ≤ 70 then some (c - 55)
  else none

/-- Modelled from the spec: `string_util::axtoi`, parsing up to `n`
hexadecimal digits starting at `i`, stopping at the first non-hex
character. -/
def axtoi (buf : List Nat) (i : Nat) : Nat → Nat → Nat
  | 0, acc => acc
  | n + 1, acc =>
    match hexVal (wat buf i) with
    | some d => axtoi buf (i + 1) n (acc * 16 + d)
    | none => acc

/-- The `symbol_font_table` constructor's table: legacy "Symbol" font
character codes mapped to their intended Unicode glyphs
(Greek alphabet, arrows, math). -/
def SYMBOL_FONT_TABLE : List (Nat × Nat) := [
    (65, 913), (66, 914), (71, 915), (68, 916), (69, 917), (90, 918),
    (72, 919), (81, 920), (73, 921), (75, 922), (76, 923), (77, 924),
    (78, 925), (88, 926), (79, 927), (80, 928), (82, 929), (83, 931),
    (84, 932), (85, 933), (70, 934), (67, 935), (89, 936), (87, 937),
    (97, 945), (98, 946), (103, 947), (100, 948), (101, 949), (122, 950),
    (104, 951), (113, 952), (105, 953), (107, 954), (108, 955), (109, 956),
    (110, 957), (120, 958), (111, 959), (112, 960), (114, 961), (86, 962),
    (115, 963), (116, 964), (117, 965), (102, 966), (99, 967), (121, 968),
    (119, 969), (74, 977), (161, 978), (106, 981), (118, 982), (171, 8596),
    (172, 8592), (173, 8593), (174, 8594), (175, 8595), (191, 8629), (219, 8660),
    (220, 8656), (221, 8657), (222, 8658), (223, 8659), (34, 8704), (36, 8707),
    (39, 8717), (42, 8727), (45, 8722), (64, 8773), (92, 8756), (94, 8869),
    (126, 8764), (163, 8804), (165, 8734), (179, 8805), (181, 8733), (182, 8706),
    (183, 8729), (185, 8800), (186, 8801), (187, 8776), (196, 8855), (197, 8853),
    (198, 8709), (199, 8745), (200, 8746), (201, 8835), (202, 8839), (203, 8836),
    (204, 8834), (205, 8838), (206, 8712), (207, 8713), (208, 8736), (209, 8711),
    (213, 8719), (214, 8730), (215, 8901), (217, 8743), (218, 8744), (229, 8721),
    (242, 8747), (224, 9674), (189, 9168), (190, 9135), (225, 9001), (230, 9115),
    (231, 9116), (232, 9117), (233, 9121), (234, 9122), (235, 9123), (236, 9127),
    (237, 9128), (238, 9129), (239, 9130), (241, 9002), (243, 8992), (244, 9134),
    (245, 8993), (246, 9118), (247, 9119), (248, 9120), (249, 9124), (250, 9125),
    (251, 9126), (252, 9131), (253, 9132), (254, 9133), (180, 215), (184, 247),
    (216, 172)]

/-- `symbol_font_table::find`: the mapped character, or the input character
itself when the table has no entry for it. -/
def symbol_font_find (letter : Nat) : Nat :=
  match SYMBOL_FONT_TABLE.lookup letter with
  | some v => v
  | none => letter

/-- `html_extract_text::convert_symbol_font_section`: remap every character
of a symbol-font span through the symbol table. -/
def convert_symbol_font_section (symbolFontText : List Nat) : List Nat :=
  symbolFontText.map symbol_font_find

/-- The `html_entity_table` constructor's table: HTML named entities mapped
to their decoded characters (transcribed from the source, including its
misspelled keys such as `mcedilicro` and `texfrac12t`). -/
def HTML_ENTITY_TABLE : List (List Nat × Nat) := [
    (wstr "apos", 39), (wstr "gt", 62), (wstr "lt", 60),
    (wstr "amp", 38), (wstr "quot", 34), (wstr "nbsp", 32),
    (wstr "iexcl", 161), (wstr "cent", 162), (wstr "pound", 163),
    (wstr "curren", 164), (wstr "yen", 165), (wstr "brvbar", 166),
    (wstr "sect", 167), (wstr "uml", 168), (wstr "copy", 169),
    (wstr "ordf", 170), (wstr "laquo", 171), (wstr "not", 172),
    (wstr "shy", 173), (wstr "reg", 174), (wstr "macr", 175),
    (wstr "deg", 176), (wstr "plusmn", 177), (wstr "sup2", 178),
    (wstr "sup3", 179), (wstr "acute", 180), (wstr "micro", 181),
    (wstr "para", 182), (wstr "middot", 183), (wstr "mcedilicro", 184),
    (wstr "sup1", 185), (wstr "ordm", 186), (wstr "raquo", 187),
    (wstr "frac14", 188), (wstr "texfrac12t", 189), (wstr "frac34", 190),
    (wstr "iquest", 191), (wstr "Agrave", 192), (wstr "Aacute", 193),
    (wstr "Acirc", 194), (wstr "Atilde", 195), (wstr "Auml", 196),
    (wstr "Aring", 197), (wstr "AElig", 198), (wstr "Ccedil", 199),
    (wstr "Egrave", 200), (wstr "Eacute", 201), (wstr "Ecirc", 202),
    (wstr "Euml", 203), (wstr "Igrave", 204), (wstr "Iacute", 205),
    (wstr "Icirc", 206), (wstr "Iuml", 207), (wstr "ETH", 208),
    (wstr "Ntilde", 209), (wstr "Ograve", 210), (wstr "Oacute", 211),
    (wstr "Ocirc", 212), (wstr "Otilde", 213), (wstr "Ouml", 214),
    (wstr "Oslash", 216), (wstr "times", 215), (wstr "Ugrave", 217),
    (wstr "Uacute", 218), (wstr "Ucirc", 219), (wstr "Uuml", 220),
    (wstr "Yacute", 221), (wstr "THORN", 222), (wstr "szlig", 223),
    (wstr "agrave", 224), (wstr "aacute", 225), (wstr "acirc", 226),
    (wstr "atilde", 227), (wstr "auml", 228), (wstr "aring", 229),
    (wstr "aelig", 230), (wstr "ccedil", 231), (wstr "egrave", 232),
    (wstr "eacute", 233), (wstr "ecirc", 234), (wstr "euml", 235),
    (wstr "igrave", 236), (wstr "iacute", 237), (wstr "icirc", 238),
    (wstr "iuml", 239), (wstr "eth", 240), (wstr "ntilde", 241),
    (wstr "ograve", 242), (wstr "oacute", 243), (wstr "ocirc", 244),
    (wstr "otilde", 245), (wstr "ouml", 246), (wstr "divide", 247),
    (wstr "oslash", 248), (wstr "ugrave", 249), (wstr "uacute", 250),
    (wstr "ucirc", 251), (wstr "uuml", 252), (wstr "yacute", 253),
    (wstr "thorn", 254), (wstr "yuml", 255), (wstr "fnof", 402),
    (wstr "Alpha", 913), (wstr "Beta", 914), (wstr "Gamma", 915),
    (wstr "Delta", 916), (wstr "Epsilon", 917), (wstr "Zeta", 918),
    (wstr "Eta", 919), (wstr "Theta", 920), (wstr "Iota", 921),
    (wstr "Kappa", 922), (wstr "Lambda", 923), (wstr "Mu", 924),
    (wstr "Nu", 925), (wstr "Xi", 926), (wstr "Omicron", 927),
    (wstr "Pi", 928), (wstr "Rho", 929), (wstr "Sigma", 931),
    (wstr "Tau", 932), (wstr "Upsilon", 933), (wstr "Phi", 934),
    (wstr "Chi", 935), (wstr "Psi", 936), (wstr "Omega", 937),
    (wstr "alpha", 945), (wstr "beta", 946), (wstr "gamma", 947),
    (wstr "delta", 948), (wstr "epsilon", 949), (wstr "zeta", 950),
    (wstr "eta", 951), (wstr "theta", 952), (wstr "iota", 953),
    (wstr "kappa", 954), (wstr "lambda", 955), (wstr "mu", 956),
    (wstr "nu", 957), (wstr "xi", 958), (wstr "omicron", 959),
    (wstr "pi", 960), (wstr "rho", 961), (wstr "sigmaf", 962),
    (wstr "sigma", 963), (wstr "tau", 964), (wstr "upsilon", 965),
    (wstr "phi", 966), (wstr "chi", 967), (wstr "psi", 968),
    (wstr "omega", 969), (wstr "thetasym", 977), (wstr "upsih", 978),
    (wstr "piv", 982), (wstr "bull", 8226), (wstr "hellip", 8230),
    (wstr "prime", 8242), (wstr "Prime", 8243), (wstr "oline", 8254),
    (wstr "frasl", 8260), (wstr "weierp", 8472), (wstr "image", 8465),
    (wstr "real", 8476), (wstr "trade", 8482), (wstr "alefsym", 8501),
    (wstr "larr", 8592), (wstr "uarr", 8593), (wstr "rarr", 8594),
    (wstr "darr", 8595), (wstr "harr", 8596), (wstr "crarr", 8629),
    (wstr "lArr", 8656), (wstr "uArr", 8657), (wstr "rArr", 8658),
    (wstr "dArr", 8659), (wstr "hArr", 8660), (wstr "forall", 8704),
    (wstr "part", 8706), (wstr "exist", 8707), (wstr "empty", 8709),
    (wstr "nabla", 8711), (wstr "isin", 8712), (wstr "notin", 8713),
    (wstr "ni", 8715), (wstr "prod", 8719), (wstr "sum", 8721),
    (wstr "minus", 8722), (wstr "lowast", 8727), (wstr "radic", 8730),
    (wstr "prop", 8733), (wstr "infin", 8734), (wstr "ang", 8736),
    (wstr "and", 8743), (wstr "or", 8744), (wstr "cap", 8745),
    (wstr "cup", 8746), (wstr "int", 8747), (wstr "there4", 8756),
    (wstr "sim", 8764), (wstr "cong", 8773), (wstr "asymp", 8776),
    (wstr "ne", 8800), (wstr "equiv", 8801), (wstr "le", 8804),
    (wstr "ge", 8805), (wstr "sub", 8834), (wstr "sup", 8835),
    (wstr "nsub", 8836), (wstr "sube", 8838), (wstr "supe", 8839),
    (wstr "oplus", 8853), (wstr "otimes", 8855), (wstr "perp", 8869),
    (wstr "sdot", 8901), (wstr "lceil", 8968), (wstr "rceil", 8969),
    (wstr "lfloor", 8970), (wstr "rfloor", 8971), (wstr "lang", 9001),
    (wstr "rang", 9002), (wstr "loz", 9674), (wstr "spades", 9824),
    (wstr "clubs", 9827), (wstr "hearts", 9829), (wstr "diams", 9830),
    (wstr "OElig", 338), (wstr "oelig", 339), (wstr "Scaron", 352),
    (wstr "scaron", 353), (wstr "Yuml", 376), (wstr "circ", 710),
    (wstr "tilde", 732), (wstr "ensp", 8194), (wstr "emsp", 8195),
    (wstr "thinsp", 8201), (wstr "zwnj", 8204), (wstr "zwj", 8205),
    (wstr "lrm", 8206), (wstr "rlm", 8207), (wstr "ndash", 8211),
    (wstr "mdash", 8212), (wstr "lsquo", 8216), (wstr "rsquo", 8217),
    (wstr "sbquo", 8218), (wstr "ldquo", 8220), (wstr "rdquo", 8221),
    (wstr "bdquo", 8222), (wstr "dagger", 8224), (wstr "Dagger", 8225),
    (wstr "permil", 8240), (wstr "lsaquo", 8249), (wstr "rsaquo", 8250),
    (wstr "euro", 8364)]

/-- `html_entity_table::find`: exact case-sensitive lookup first, then a
lowercased retry, then the sentinel question mark. -/
def html_entity_find (key : List Nat) : Nat :=
  match HTML_ENTITY_TABLE.lookup key with
  | some v => v
  | none =>
    match HTML_ENTITY_TABLE.lookup (key.map towlowerW) with
    | some v => v
    | none => 63

/-- Outcome of one match attempt inside `stristr_not_quoted`: the inner
character loop either hits the NUL terminator, completes the needle, or
mismatches after matching `k` characters; the quote flags it updated along
the way persist. -/
inductive SnqStep where
  | hitNul : SnqStep
  | complete (dq sq : Bool) : SnqStep
  | mismatch (k : Nat) (dq sq : Bool) : SnqStep

/-- The inner character-by-character loop of
`html_extract_text::stristr_not_quoted` at window start `i`, offset `j`.
Note the quirk kept from the source: the single-quote test reads
`string[0]` — the character at the window start — not the current
character. -/
def snqScan (buf : List Nat) (i : Nat) (dq sq : Bool) (j : Nat) : List Nat → SnqStep
  | [] => .complete dq sq
  | c :: cs =>
    let ch := wat buf (i + j)
    if ch = 0 then .hitNul
    else
      let dq1 := if ch = 34 then !dq else if (!dq || sq) && wat buf i = 39 then !dq else dq
      let sq1 := if ch = 34 then false else if (!dq || sq) && wat buf i = 39 then true else sq
      if towlowerW c = towlowerW ch then snqScan buf i dq1 sq1 (j + 1) cs
      else .mismatch j dq1 sq1

/-- The outer loop of `html_extract_text::stristr_not_quoted`: on a
complete match outside quotes, return the position; on a complete match
inside quotes, advance by the needle length; on a partial mismatch after
matching `k` characters, advance by `k + 1`. -/
def snqLoop (buf : List Nat) (endSentinel : Nat) (needle : List Nat)
    (dq sq : Bool) : Nat → Nat → Option Nat
  | 0, _ => none
  | fuel + 1, i =>
    if i + needle.length ≤ endSentinel then
      match snqScan buf i dq sq 0 needle with
      | .hitNul => none
      | .complete dq1 sq1 =>
        if !dq1 then some i
        else snqLoop buf endSentinel needle dq1 sq1 fuel (i + needle.length)
      | .mismatch k dq1 sq1 => snqLoop buf endSentinel needle dq1 sq1 fuel (i + k + 1)
    else none

/-- `html_extract_text::stristr_not_quoted`: case-insensitive substring
search within `stringSize` characters from `i` that skips matches found
inside quote regions. -/
def stristr_not_quoted (buf : List Nat) (i stringSize : Nat)
    (strSearch : List Nat) : Option Nat :=
  if stringSize = 0 ∨ strSearch = [] then none
  else snqLoop buf (i + stringSize) strSearch false false (stringSize + 1) i

/-- Fuel-indexed body of the `find_close_tag` scan, carrying the two quote
flags and the nesting depth of `<`...`>` pairs. -/
def fctLoop (buf : List Nat) : Nat → Bool → Bool → Int → Nat → Option Nat
  | 0, _, _, _, _ => none
  | fuel + 1, dq, sq, openTagCount, i =>
    if wat buf i = 0 then none
    else if wat buf i = 34 then fctLoop buf fuel (!dq) false openTagCount (i + 1)
    else if (!dq || sq) && wat buf i = 39 then fctLoop buf fuel (!dq) true openTagCount (i + 1)
    else if !dq && wat buf i = 60 then fctLoop buf fuel dq sq (openTagCount + 1) (i + 1)
    else if !dq && wat buf i = 62 then
      if openTagCount = 0 then some i
      else fctLoop buf fuel dq sq (openTagCount - 1) (i + 1)
    else fctLoop buf fuel dq sq openTagCount (i + 1)

/-- `html_extract_text::find_close_tag`: position of the matching unquoted
`>`, skipping quoted angle brackets and nested `<`...`>` pairs; steps over
an initial `<`. -/
def find_close_tag (buf : List Nat) (i : Nat) : Option Nat :=
  let j := if wat buf i = 60 then i + 1 else i
  fctLoop buf (buf.length + 1) false false 0 j

/-- The backward whitespace walk at the end of `compare_element`
(`--closeTag; while (closeTag > text && iswspace(*closeTag)) --closeTag`). -/
def backSkipSpace (buf : List Nat) (t : Nat) : Nat → Nat
  | 0 => 0
  | j + 1 => if t < j + 1 ∧ iswspaceW (wat buf (j + 1)) then backSkipSpace buf t j else j + 1

/-- `html_extract_text::compare_element`: the text at `i` names exactly the
given element (not a longer name's prefix), optionally accepting
self-terminating `/>` forms. -/
def compare_element (buf : List Nat) (i : Nat) (element : List Nat)
    (acceptSelfTerminating : Bool) : Bool :=
  if element = [] then false
  else if matchListAtCI buf i element then
    let t := i + element.length
    let c := wat buf t
    if c = 0 then false
    else if c = 62 then true
    else if acceptSelfTerminating then c = 47 || iswspaceW c
    else if iswspaceW c then
      match find_close_tag buf t with
      | none => false
      | some closeTag => !(wat buf (backSkipSpace buf t (closeTag - 1)) = 47)
    else false
  else false

/-- Fuel-indexed body of the `get_element_name` scan: the index of the
first terminator (NUL, whitespace, `>`, or — when accepted — `/>`). -/
def genLoop (buf : List Nat) (acceptSelfTerminating : Bool) : Nat → Nat → Nat
  | 0, i => i
  | fuel + 1, i =>
    if wat buf i = 0 ∨ iswspaceW (wat buf i) ∨ wat buf i = 62 then i
    else if acceptSelfTerminating ∧ wat buf i = 47 ∧ wat buf (i + 1) = 62 then i
    else genLoop buf acceptSelfTerminating fuel (i + 1)

/-- `html_extract_text::get_element_name`: the element-name span starting
at `i`, as a standalone list (comparisons on it are made case-insensitively
by the callers, mirroring `case_insensitive_wstring_view`). -/
def get_element_name (buf : List Nat) (i : Nat)
    (acceptSelfTerminating : Bool) : List Nat :=
  wslice buf i (genLoop buf acceptSelfTerminating (buf.length + 1) i - i)

/-- Fuel-indexed body of the `find_tag` loop: search for a whole-token
occurrence of the attribute name inside the element's span. -/
def findTagLoop (buf : List Nat) (textStart elementEnd : Nat) (tag : List Nat)
    (allowQuotedTags : Bool) : Nat → Nat → Option Nat
  | 0, _ => none
  | fuel + 1, i =>
    let ft := if allowQuotedTags then strnistr buf i (elementEnd - i) tag
              else stristr_not_quoted buf i (elementEnd - i) tag
    match ft with
    | none => none
    | some p =>
      if p > elementEnd then none
      else if p = textStart then some p
      else if allowQuotedTags && (wat buf (p - 1) = 39 || wat buf (p - 1) = 34) then some p
      else if iswspaceW (wat buf (p - 1)) || wat buf (p - 1) = 59 then some p
      else findTagLoop buf textStart elementEnd tag allowQuotedTags fuel (p + tag.length)

/-- `html_extract_text::find_tag`: locate a whole-token occurrence of `tag`
within the current element (bounded by `find_close_tag`). -/
def find_tag (buf : List Nat) (i : Nat) (tag : List Nat)
    (allowQuotedTags : Bool) : Option Nat :=
  if tag = [] then none
  else
    match find_close_tag buf i with
    | none => none
    | some elementEnd => findTagLoop buf i elementEnd tag allowQuotedTags (elementEnd + 2) i

/-- The space-skipping steps inside `read_attribute`
(`while (foundTag < elementEnd && *foundTag == ' ') ++foundTag`). -/
def skipChar32 (buf : List Nat) (limit : Nat) : Nat → Nat → Nat
  | 0, j => j
  | fuel + 1, j =>
    if j < limit ∧ wat buf j = 32 then skipChar32 buf limit fuel (j + 1) else j

/-- The trailing `/` and space trim at the end of `read_attribute`
(`while (end-1 > foundTag) { if *(end-1) is / or space then --end }`). -/
def backTrimSlash (buf : List Nat) (ft : Nat) : Nat → Nat
  | 0 => 0
  | e + 1 =>
    if ft + 1 < e + 1 ∧ (wat buf e = 47 ∨ wat buf e = 32) then backTrimSlash buf ft e
    else e + 1

/-- `html_extract_text::read_attribute`: the `(start, length)` span of an
attribute's value inside the element at `i`, or `none`. -/
def read_attribute (buf : List Nat) (i : Nat) (tag : List Nat)
    (allowQuotedTags : Bool) (allowSpacesInValue : Bool) : Option (Nat × Nat) :=
  if tag = [] then none
  else
    match find_tag buf i tag allowQuotedTags, find_close_tag buf i with
    | some foundTag0, some elementEnd =>
      if foundTag0 < elementEnd then
        let f1 := skipChar32 buf elementEnd (buf.length + 1) (foundTag0 + tag.length)
        let f2 := if f1 < elementEnd ∧ (wat buf f1 = 58 ∨ wat buf f1 = 61) then f1 + 1 else f1
        let f3 := skipChar32 buf elementEnd (buf.length + 1) f2
        let f4 := if f3 < elementEnd ∧ (wat buf f3 = 39 ∨ wat buf f3 = 34) then f3 + 1 else f3
        if f4 ≥ elementEnd then none
        else
          let terms : List Nat :=
            if allowQuotedTags ∧ allowSpacesInValue then [34, 39, 62, 59]
            else if allowQuotedTags then [32, 34, 39, 62, 59]
            else if allowSpacesInValue then [34, 39, 62]
            else [32, 34, 39, 62]
          match strcspn_pointer buf f4 terms with
          | none => none
          | some e0 =>
            if e0 ≤ elementEnd then
              let e1 := if wat buf e0 = 62 then backTrimSlash buf f4 e0 else e0
              if e1 - f4 = 0 then none else some (f4, e1 - f4)
            else none
      else none
    | _, _ => none

/-- `html_extract_text::read_attribute_as_string`: the attribute value
copied out as a standalone string (empty when absent). -/
def read_attribute_as_string (buf : List Nat) (i : Nat) (tag : List Nat)
    (allowQuotedTags : Bool) (allowSpacesInValue : Bool) : List Nat :=
  match read_attribute buf i tag allowQuotedTags allowSpacesInValue with
  | none => []
  | some (p, n) => wslice buf p n

/-- The depth update of `find_closing_element` at the tag starting at
`start`: decrement on a same-named closing tag, increment on a same-named
opening tag, otherwise unchanged. -/
def fceStep (buf : List Nat) (element : List Nat) (stackSize : Int) (start : Nat) : Int :=
  if wat buf (start + 1) = 47 && compare_element buf (start + 2) element true then
    stackSize - 1
  else if compare_element buf (start + 1) element true then stackSize + 1
  else stackSize

/-- Fuel-indexed body of the stack-balanced scan of
`find_closing_element`: apply the depth update at every `<` and return the
position where the depth reaches zero. -/
def fceLoop (buf : List Nat) (sectionEnd : Nat) (element : List Nat) :
    Nat → Int → Option Nat → Option Nat
  | 0, _, _ => none
  | fuel + 1, stackSize, startOpt =>
    match startOpt with
    | none => none
    | some start =>
      if start + element.length + 1 < sectionEnd then
        if fceStep buf element stackSize start = 0 then some start
        else
          fceLoop buf sectionEnd element fuel (fceStep buf element stackSize start)
            (wcschr buf (start + 1) 60)
      else none

/-- `html_extract_text::find_closing_element`: stack-balanced search for
the `<` of the closing tag matching the element at or after
`sectionStart`. -/
def find_closing_element (buf : List Nat) (sectionStart sectionEnd : Nat)
    (element : List Nat) : Option Nat :=
  if element = [] then none
  else
    match wcschr buf sectionStart 60 with
    | none => none
    | some st =>
      if st + element.length > sectionEnd then none
      else if compare_element buf (st + 1) element true then
        fceLoop buf sectionEnd element (sectionEnd + 2) 1
          (wcschr buf (st + 1 + element.length) 60)
      else if wat buf (st + 1) = 47 && compare_element buf (st + 1 + 1) element true then
        some (st + 1 - 1)
      else fceLoop buf sectionEnd element (sectionEnd + 2) 1 (wcschr buf sectionStart 60)

/-- Modelled from the spec: `string_util::to_superscript`, the superscript
Unicode form of a character for those that have one (digits here), identity
otherwise. -/
def to_superscript (c : Nat) : Nat :=
  if c = 48 then 8304
  else if c = 49 then 185
  else if c = 50 then 178
  else if c = 51 then 179
  else if 52 ≤ c ∧ c ≤ 57 then 8304 + (c - 48)
  else c

/-- Modelled from the spec: `string_util::to_subscript`, the subscript
Unicode form of a character for those that have one (digits here), identity
otherwise. -/
def to_subscript (c : Nat) : Nat :=
  if 48 ≤ c ∧ c ≤ 57 then 8320 + (c - 48) else c

/-- The ligature expansions of the numeric-entity branch of
`parse_raw_text` (applied under the guard `0xFB00 ≤ value ≤ 0xFB06`). -/
def ligatureExpansion (value : Nat) : List Nat :=
  if value = 0xFB00 then wstr "ff"
  else if value = 0xFB01 then wstr "fi"
  else if value = 0xFB02 then wstr "fl"
  else if value = 0xFB03 then wstr "ffi"
  else if value = 0xFB04 then wstr "ffl"
  else if value = 0xFB05 then wstr "ft"
  else wstr "st"

/-- The numeric-entity branch of `parse_raw_text` (`&#NNN;` and `&#xHH;`
forms): the characters emitted and the diagnostics logged for the entity
whose `&` sits at `pos + index` and whose terminator sits at `sem`.  The
`static_cast<wchar_t>` of the parsed value is modelled as reduction modulo
`2 ^ 32`. -/
def numericEntityEmit (buf : List Nat) (pos size index sem : Nat) :
    List Nat × List (List Nat) :=
  let hexLength := size - (index + 3)
  let value :=
    if wat buf (pos + index + 2) = 120 ∨ wat buf (pos + index + 2) = 88 then
      axtoi buf (pos + index + 3) hexLength 0 % 4294967296
    else atoiW buf (pos + index + 2) % 4294967296
  if value = 173 then ([], [])
  else if 0xFB00 ≤ value ∧ value ≤ 0xFB06 then (ligatureExpansion value, [])
  else if value ≠ 0 then ([value], [])
  else
    (wslice buf (pos + index) (sem + 1 - (pos + index)),
     [wstr "Invalid numeric HTML entity: " ++
       wslice buf (pos + index) (sem + 1 - (pos + index))])

/-- The terminator search of the doubly-escaped-ampersand workaround in
`parse_raw_text` (`while (!iswspace(*nt) && *nt != ';' && nt < end) ++nt`). -/
def nextTerminatorLoop (buf : List Nat) (limit : Nat) : Nat → Nat → Nat
  | 0, j => j
  | fuel + 1, j =>
    if ¬ iswspaceW (wat buf j) ∧ wat buf j ≠ 59 ∧ j < limit then
      nextTerminatorLoop buf limit fuel (j + 1)
    else j

/-- The named-entity branch of `parse_raw_text`: the (possibly moved)
terminator position, the characters emitted and the diagnostics logged. -/
def namedEntityEmit (buf : List Nat) (pos size index sem : Nat) :
    Nat × List Nat × List (List Nat) :=
  let value := html_entity_find (wslice buf (pos + index + 1) (sem - (pos + index + 1)))
  if value = 173 then (sem, [], [])
  else if value = 63 ∧ wat buf sem ≠ 59 then
    (sem, wslice buf (pos + index) (sem - (pos + index) + 1),
     [wstr "Unencoded ampersand or unknown HTML entity: " ++
       wslice buf (pos + index) (sem - (pos + index))])
  else
    let workaround : Option (Nat × Nat) :=
      if wat buf sem = 59 ∧ value = 38 then
        let nt := nextTerminatorLoop buf (pos + size) (buf.length + 1) (sem + 1)
        if nt < pos + size ∧ wat buf nt = 59 then
          let badly := html_entity_find (wslice buf (sem + 1) (nt - (sem + 1)))
          if badly ≠ 63 then some (nt, badly) else none
        else none
      else none
    match workaround with
    | some (nt, badly) =>
      (nt, [badly],
       [wstr "Ampersand incorrectly encoded in HTML entity: " ++
         wslice buf (pos + index) (nt - (pos + index) + 1)])
    | none =>
      (sem,
       [value] ++ (if wat buf sem ≠ 59 then [wat buf sem] else []),
       (if value = 63 then
          [wstr "Unknown HTML entity: " ++ wslice buf (pos + index) (sem - (pos + index))]
        else []) ++
       (if wat buf sem ≠ 59 then
          [wstr "Missing semicolon on HTML entity: " ++
            wslice buf (pos + index) (sem - (pos + index))]
        else []))

/-- Fuel-indexed body of `html_extract_text::parse_raw_text`, returning the
characters appended to the output buffer and the diagnostics logged.  As in
the pointer code, the entity scan may accept a terminator sitting exactly
one character past the span's end. -/
def parseRawF (pre sup sub : Int) (buf : List Nat) :
    Nat → Nat → Nat → List Nat × List (List Nat)
  | 0, _, _ => ([], [])
  | fuel + 1, pos, size =>
    if size = 0 then ([], [])
    else
      let index :=
        if pre > 0 then strncspn buf pos [38, 36] size
        else strncspn buf pos [13, 10, 38, 36] size
      if index < size then
        if wat buf (pos + index) = 38 then
          match strcspn_pointer buf (pos + index + 1) [59, 60, 32, 9, 10, 13] with
          | none =>
            let (rest, msgs) :=
              parseRawF pre sup sub buf fuel (pos + index + 1) (size - (index + 1))
            ((if 0 < index then wslice buf pos index ++ [38] else []) ++ rest, msgs)
          | some sem =>
            if sem > pos + size then
              let (rest, msgs) :=
                parseRawF pre sup sub buf fuel (pos + index + 1) (size - (index + 1))
              ((if 0 < index then wslice buf pos index ++ [38] else []) ++ rest, msgs)
            else
              let head := if 0 < index then wslice buf pos index else []
              let step :=
                if iswspaceW (wat buf (pos + index + 1)) then (sem, [38, 32], ([] : List (List Nat)))
                else if wat buf (pos + index + 1) = 35 then
                  (sem, (numericEntityEmit buf pos size index sem).1,
                    (numericEntityEmit buf pos size index sem).2)
                else namedEntityEmit buf pos size index sem
              let (rest, msgs) :=
                parseRawF pre sup sub buf fuel (step.1 + 1) (size - (step.1 + 1 - pos))
              (head ++ step.2.1 ++ rest, step.2.2 ++ msgs)
        else if wat buf (pos + index) = 36 then
          let closingBrace :=
            if index + 1 < size ∧ wat buf (pos + index + 1) = 123 then
              strnchr buf (pos + 1) 125 size
            else none
          match closingBrace with
          | none =>
            let (rest, msgs) :=
              parseRawF pre sup sub buf fuel (pos + index + 1) (size - (index + 1))
            ((if 0 < index then wslice buf pos index else []) ++ [36] ++ rest, msgs)
          | some cb =>
            if cb > pos + size then
              let (rest, msgs) :=
                parseRawF pre sup sub buf fuel (pos + index + 1) (size - (index + 1))
              ((if 0 < index then wslice buf pos index else []) ++ [36] ++ rest, msgs)
            else
              let (rest, msgs) :=
                parseRawF pre sup sub buf fuel (cb + 1) (size - (cb + 1 - pos))
              ((if 0 < index then wslice buf pos index else []) ++ rest, msgs)
        else
          let head :=
            if sup > 0 then (wslice buf pos index).map to_superscript
            else if sub > 0 then (wslice buf pos index).map to_subscript
            else wslice buf pos index
          let (rest, msgs) :=
            parseRawF pre sup sub buf fuel (pos + index + 1) (size - (index + 1))
          (head ++ [32] ++ rest, msgs)
      else
        ((if sup > 0 then (wslice buf pos size).map to_superscript
          else if sub > 0 then (wslice buf pos size).map to_subscript
          else wslice buf pos size), [])

/-- `html_extract_text::parse_raw_text`: decode a bounded span of raw text,
returning the characters appended to the output buffer and the diagnostics
logged; `pre`, `sup` and `sub` are the engine's three state counters, which
the decoder reads but never changes.  The span's size strictly decreases on
every loop iteration, so `size + 1` units of fuel always complete the
scan. -/
def parse_raw_text (pre sup sub : Int) (buf : List Nat) (pos size : Nat) :
    List Nat × List (List Nat) :=
  parseRawF pre sup sub buf (size + 1) pos size

/-- The extraction engine's per-call state.  Fields mirror the C++ members:
`buffer` is the output text buffer, `preformatted` / `superscript` /
`subscript` are `m_is_in_preformatted_text_block_stack`,
`m_superscript_stack` and `m_subscript_stack`, the five metadata fields are
`m_title` … `m_subject`, and `log` is the diagnostics log.  Two ghost trace
fields support stating invariants: `snaps` records the output buffer's
value after every write-back, and `counters` records the three state
counters at every loop iteration. -/
structure Engine where
  buffer : List Nat
  preformatted : Int
  superscript : Int
  subscript : Int
  title : List Nat
  author : List Nat
  description : List Nat
  keywords : List Nat
  subject : List Nat
  log : List (List Nat)
  snaps : List (List Nat)
  counters : List (Int × Int × Int)
deriving DecidableEq

/-- `add_character` / `add_characters`: append to the output buffer. -/
def Engine.emit (st : Engine) (cs : List Nat) : Engine :=
  { st with buffer := st.buffer ++ cs }

/-- Ghost: record the output buffer's current value in the snapshot
trace. -/
def Engine.snap (st : Engine) : Engine := { st with snaps := st.snaps ++ [st.buffer] }

/-- Ghost: record the three state counters in the counter trace. -/
def Engine.markCounters (st : Engine) : Engine :=
  { st with counters := st.counters ++ [(st.preformatted, st.superscript, st.subscript)] }

/-- A `parse_raw_text` call against the engine: append the decoded
characters and the diagnostics, and record a snapshot. -/
def Engine.rawText (st : Engine) (buf : List Nat) (pos size : Nat) : Engine :=
  Engine.snap { st with
    buffer := st.buffer ++
      (parse_raw_text st.preformatted st.superscript st.subscript buf pos size).1,
    log := st.log ++
      (parse_raw_text st.preformatted st.superscript st.subscript buf pos size).2 }

/-- The unterminated-CDATA fallback: parse the remainder with the
preformatted counter temporarily incremented and then restored. -/
def Engine.rawTextPreformatted (st : Engine) (buf : List Nat) (pos size : Nat) : Engine :=
  Engine.snap { st with
    buffer := st.buffer ++
      (parse_raw_text (st.preformatted + 1) st.superscript st.subscript buf pos size).1,
    log := st.log ++
      (parse_raw_text (st.preformatted + 1) st.superscript st.subscript buf pos size).2 }

/-- The state-reset prologue of `operator()`: clear the log, the metadata
fields and the output buffer, and reset the counters
(`preserve_newlines = true` starts inside one preformatted block). -/
def initialEngine (preserveNewlines : Bool) : Engine :=
  { buffer := [], preformatted := if preserveNewlines then 1 else 0, superscript := 0,
    subscript := 0, title := [], author := [], description := [], keywords := [],
    subject := [], log := [], snaps := [], counters := [] }

/-- Modelled from the spec: `string_util::trim`, removing leading and
trailing whitespace. -/
def trimW (s : List Nat) : List Nat :=
  ((s.dropWhile (fun c => iswspaceW c)).reverse.dropWhile (fun c => iswspaceW c)).reverse

/-- Modelled from the spec: `string_util::remove_extra_spaces`, collapsing
every run of whitespace into a single character. -/
def remove_extra_spaces : List Nat → List Nat
  | [] => []
  | [c] => [c]
  | c :: c2 :: rest =>
    if iswspaceW c && iswspaceW c2 then remove_extra_spaces (c2 :: rest)
    else c :: remove_extra_spaces (c2 :: rest)

/-- The `newParagraphElements` set of `operator()`. -/
def newParagraphElements : List (List Nat) :=
  [wstr "button", wstr "div", wstr "dl", wstr "dt", wstr "h1", wstr "h2", wstr "h3",
   wstr "h4", wstr "h5", wstr "h6", wstr "hr", wstr "input", wstr "ol", wstr "option",
   wstr "p", wstr "select", wstr "table", wstr "tr", wstr "ul"]

/-- Membership in `newParagraphElements` (the `std::set` holds
case-insensitive strings). -/
def isNewParagraphElement (e : List Nat) : Bool :=
  newParagraphElements.any (fun p => stricmpEq e p)

/-- `std::wstring::find(needle) != npos`: boolean substring containment. -/
def containsSub (needle : List Nat) : List Nat → Bool
  | [] => needle.isPrefixOf []
  | c :: rest => needle.isPrefixOf (c :: rest) || containsSub needle rest

/-- The Symbol-font attribute test of the generic element branch
(`strnicmp(read_attribute(...).first, "Symbol", 6) == 0`); comparison
through a null pointer (attribute absent) is modelled as a failed
comparison. -/
def symbolFontAttr (buf : List Nat) (i : Nat) (attr : List Nat) (allowQuoted : Bool) : Bool :=
  match read_attribute buf i attr allowQuoted true with
  | none => false
  | some (p, _) => matchListAtCI buf p (wstr "Symbol")

/-- The meta-content handling shared by the author / description /
keywords branches: read the `content` attribute, re-parse it as HTML with a
fresh engine, and store the trimmed, whitespace-collapsed result (the raw
attribute string is kept when the inner parse returns null). -/
def metaFieldValue (innerParse : List Nat → Nat → Nat → Engine × Option (List Nat))
    (buf : List Nat) (start : Nat) : List Nat :=
  let raw := read_attribute_as_string buf start (wstr "content") false true
  match (innerParse raw 0 raw.length).2 with
  | some a => remove_extra_spaces (trimW a)
  | none => raw

/-- Outcome of the skip-element branches (`script`, `noscript`,
`annotation`, `annotation-xml`, `style`): jump to a position, stop keeping
the previous `end` pointer, or stop with a null `end` pointer. -/
inductive TagSkip where
  | toPos (e : Nat)
  | stopKeepEnd
  | stopNullEnd
deriving DecidableEq

/-- The shared shape of the five skip-element branches: search for the
literal closing sequence; if it is absent, step over this tag's `>` and
jump to the next `<`. -/
def skipElementBlock (buf : List Nat) (start : Nat) (endLit : List Nat) : TagSkip :=
  match stristr buf start endLit with
  | some e => .toPos (e + endLit.length)
  | none =>
    match find_close_tag buf start with
    | none => .stopKeepEnd
    | some closeTag =>
      match wcschr buf closeTag 60 with
      | none => .stopNullEnd
      | some e2 => .toPos e2

/-- Outcome of one dispatch of the main loop's element `if`-chain: fall
through to the shared tail (with the symbol-font flag and the position just
past the tag), continue the loop directly, or break out of it. -/
inductive BranchOut where
  | fall (st : Engine) (isSymbolFontSection : Bool) (endPos : Nat)
  | cont (st : Engine) (start : Nat) (endp : Option Nat)
  | halt (st : Engine) (endp : Option Nat)

/-- Interpret a skip-element outcome as a loop action. -/
def TagSkip.out (st : Engine) (endp : Option Nat) : TagSkip → BranchOut
  | .toPos e => .fall st false e
  | .stopKeepEnd => .halt st endp
  | .stopNullEnd => .halt st none

/-- The `meta` element branch of `operator()`: read the `name` attribute
and store the re-parsed `content` value into the matching metadata field
(each occurrence assigns the field), then jump to the next `<`. -/
def metaBranch (innerParse : List Nat → Nat → Nat → Engine × Option (List Nat))
    (buf : List Nat) (st : Engine) (start : Nat) (endp : Option Nat) : BranchOut :=
  match find_close_tag buf start with
  | none => .halt st endp
  | some closeTag =>
    let metaName := read_attribute_as_string buf start (wstr "name") false false
    let st1 :=
      if stricmpEq metaName (wstr "author") then
        { st with author := metaFieldValue innerParse buf start }
      else if stricmpEq metaName (wstr "description") then
        { st with description := metaFieldValue innerParse buf start }
      else if stricmpEq metaName (wstr "keywords") then
        { st with keywords := metaFieldValue innerParse buf start }
      else st
    match wcschr buf closeTag 60 with
    | none => .halt st1 none
    | some e => .fall st1 false e

/-- The `title` element branch of `operator()`: re-parse the inner HTML up
to the matching `</title>` and assign `m_title` (each closed occurrence
assigns the field). -/
def titleBranch (innerParse : List Nat → Nat → Nat → Engine × Option (List Nat))
    (buf : List Nat) (st : Engine) (start : Nat) (endp : Option Nat) : BranchOut :=
  match find_close_tag buf start with
  | none => .halt st endp
  | some ct =>
    match stristr buf start (wstr "</title>") with
    | none =>
      match wcschr buf (ct + 1) 60 with
      | none => .halt st none
      | some e => .fall st false e
    | some e0 =>
      let st1 :=
        match (innerParse buf (ct + 1) (e0 - (ct + 1))).2 with
        | some t => { st with title := remove_extra_spaces (trimW t) }
        | none => st
      .fall st1 false (e0 + 8)

/-- The `subject` element branch of `operator()` (mirrors the title
branch). -/
def subjectBranch (innerParse : List Nat → Nat → Nat → Engine × Option (List Nat))
    (buf : List Nat) (st : Engine) (start : Nat) (endp : Option Nat) : BranchOut :=
  match find_close_tag buf start with
  | none => .halt st endp
  | some ct =>
    match stristr buf start (wstr "</subject>") with
    | none =>
      match wcschr buf (ct + 1) 60 with
      | none => .halt st none
      | some e => .fall st false e
    | some e0 =>
      let st1 :=
        match (innerParse buf (ct + 1) (e0 - (ct + 1))).2 with
        | some t => { st with subject := remove_extra_spaces (trimW t) }
        | none => st
      .fall st1 false (e0 + 10)

/-- The stray-`<` branch of `operator()`: an unencoded `<` is literal text
up to the next real `<`. -/
def strayLtBranch (buf : List Nat) (endSent : Nat) (st : Engine) (start : Nat) : BranchOut :=
  match wcschr buf (start + 1) 60 with
  | none => .halt (st.rawText buf start (endSent - start)) none
  | some e => .cont (st.rawText buf start (e - start)) e (some e)

/-- The `![CDATA[` branch of `operator()`: copy the block verbatim up to
`]]>`; an unterminated block is parsed as preformatted text and ends the
scan. -/
def cdataBranch (buf : List Nat) (endSent : Nat) (st : Engine) (start : Nat) : BranchOut :=
  match wcsstr buf (start + 9) (wstr "]]>") with
  | none => .halt (st.rawTextPreformatted buf (start + 9) (endSent - (start + 9))) none
  | some e =>
    if e > endSent then
      .halt (st.rawTextPreformatted buf (start + 9) (endSent - (start + 9))) (some e)
    else .cont (st.emit (wslice buf (start + 9) (e - (start + 9)))) e (some (e + 2))

/-- The per-element state update of the generic branch of `operator()`:
counter increments for `pre` / `sup` / `sub`, paragraph breaks, list/table
formatting characters, the anchor and span special cases (the hidden-span
case moves `start` past the matching `</span>`). -/
def genericElementUpdate (buf : List Nat) (endSent : Nat) (st : Engine) (start : Nat)
    (remaining : Nat) (currentElement : List Nat) : Engine × Nat :=
  if stricmpEq currentElement (wstr "pre") then
    ({ st with preformatted := st.preformatted + 1 }, start)
  else if stricmpEq currentElement (wstr "sup") then
    ({ st with superscript := st.superscript + 1 }, start)
  else if stricmpEq currentElement (wstr "sub") then
    ({ st with subscript := st.subscript + 1 }, start)
  else if isNewParagraphElement currentElement then
    let stq := st.emit [10, 10]
    let pb := read_attribute_as_string buf (start + 1) (wstr "page-break-before") true false
    (if pb ≠ [] ∧ (matchListAtCI pb 0 (wstr "always") ∨ matchListAtCI pb 0 (wstr "auto") ∨
        matchListAtCI pb 0 (wstr "left") ∨ matchListAtCI pb 0 (wstr "right")) then
      stq.emit [12]
     else stq, start)
  else if stricmpEq currentElement (wstr "br") then (st.emit [10], start)
  else if 3 ≤ remaining ∧ wat buf start = 60 ∧ wat buf (start + 1) = 47 then
    (if isNewParagraphElement (currentElement.drop 1) ∧
        ¬ stricmpEq currentElement (wstr "/tr") ∧
        ¬ stricmpEq currentElement (wstr "/dt") ∧
        ¬ stricmpEq currentElement (wstr "/option") then
      st.emit [10, 10]
     else st, start)
  else if stricmpEq currentElement (wstr "li") then (st.emit [10, 9], start)
  else if stricmpEq currentElement (wstr "td") then (st.emit [9], start)
  else if stricmpEq currentElement (wstr "dd") then (st.emit [58, 9], start)
  else if stricmpEq currentElement (wstr "a") then
    let href := read_attribute_as_string buf (start + 1) (wstr "href") false false
    let st1 :=
      if matchListAtCI href 0 (wstr "mailto:") ∨ matchListAtCI href 0 (wstr "tel:") then
        st.emit [32]
      else st
    let cls := read_attribute_as_string buf (start + 1) (wstr "class") false false
    (if containsSub (wstr "FooterLink") cls then st1.emit [10, 10] else st1, start)
  else if stricmpEq currentElement (wstr "span") then
    let dt := read_attribute_as_string buf (start + 1) (wstr "data-type") false false
    let st1 :=
      if dt = wstr "newline" then st.emit [10]
      else if dt = wstr "footnote-ref-content" then st.emit [9]
      else st
    let cls := read_attribute_as_string buf (start + 1) (wstr "class") false false
    if cls ≠ [] then
      if containsSub (wstr "BookBanner") cls ∨ cls = wstr "os-caption" then
        (st1.emit [10, 10], start)
      else if cls = wstr "os-term-section" then (st1.emit [9], start)
      else if containsSub (wstr "hidden") cls then
        (st1, match find_closing_element buf start endSent (wstr "span") with
          | some se => se
          | none => start)
      else (st1, start)
    else (st1, start)
  else (st, start)

/-- The generic (fall-through) element branch of `operator()`: detect a
Symbol-font section, apply the per-element update, then find this tag's
closing `>`; a tag with no `>` before the next `<` is re-parsed as literal
text. -/
def genericBranch (buf : List Nat) (endSent : Nat) (st : Engine) (start : Nat)
    (remaining : Nat) (currentElement : List Nat) : BranchOut :=
  let isSym :=
    if stricmpEq currentElement (wstr "font") then
      symbolFontAttr buf (start + 1) (wstr "face") false ||
      symbolFontAttr buf (start + 1) (wstr "font-family") true
    else symbolFontAttr buf (start + 1) (wstr "font-family") true
  let su := genericElementUpdate buf endSent st start remaining currentElement
  match find_close_tag buf (su.2 + 1) with
  | some e => .fall su.1 isSym (e + 1)
  | none =>
    match wcschr buf (su.2 + 1) 60 with
    | none => .halt su.1 none
    | some e => .cont (su.1.rawText buf su.2 (e - su.2)) e (some e)

/-- One dispatch of `operator()`'s element `if`-chain at position `start`
(with `start < endSent`), given `innerParse` for the recursive re-parsing
of metadata values.  `endp` is the current value of the loop's `end`
pointer, which some break paths leave untouched. -/
def extractBranch (innerParse : List Nat → Nat → Nat → Engine × Option (List Nat))
    (buf : List Nat) (endSent : Nat) (st : Engine) (start : Nat)
    (endp : Option Nat) : BranchOut :=
  let remaining := endSent - start
  let currentElement := get_element_name buf (start + 1) false
  if 4 ≤ remaining ∧ wat buf start = 60 ∧ wat buf (start + 1) = 33 ∧
      wat buf (start + 2) = 45 ∧ wat buf (start + 3) = 45 then
    match wcsstr buf start (wstr "-->") with
    | none => .halt st none
    | some e => .fall st false (e + 3)
  else if stricmpEq currentElement (wstr "script") then
    (skipElementBlock buf start (wstr "</script>")).out st endp
  else if stricmpEq currentElement (wstr "noscript") then
    (skipElementBlock buf start (wstr "</noscript>")).out st endp
  else if stricmpEq currentElement (wstr "annotation") then
    (skipElementBlock buf start (wstr "</annotation>")).out st endp
  else if stricmpEq currentElement (wstr "annotation-xml") then
    (skipElementBlock buf start (wstr "</annotation-xml>")).out st endp
  else if stricmpEq currentElement (wstr "style") then
    (skipElementBlock buf start (wstr "</style>")).out st endp
  else if stricmpEq currentElement (wstr "meta") then
    metaBranch innerParse buf st start endp
  else if stricmpEq currentElement (wstr "title") then
    titleBranch innerParse buf st start endp
  else if stricmpEq currentElement (wstr "subject") then
    subjectBranch innerParse buf st start endp
  else if (2 ≤ remaining ∧ wat buf start = 60 ∧ iswspaceW (wat buf (start + 1))) ∨
      (7 ≤ remaining ∧ wat buf start = 60 ∧ wat buf (start + 1) = 38 ∧
       (wat buf (start + 2) = 110 ∨ wat buf (start + 2) = 78) ∧
       (wat buf (start + 3) = 98 ∨ wat buf (start + 3) = 66) ∧
       (wat buf (start + 4) = 115 ∨ wat buf (start + 4) = 83) ∧
       (wat buf (start + 5) = 112 ∨ wat buf (start + 5) = 80) ∧
       wat buf (start + 6) = 59) then
    strayLtBranch buf endSent st start
  else if stricmpEq (currentElement.take 8) (wstr "![CDATA[") then
    cdataBranch buf endSent st start
  else genericBranch buf endSent st start remaining currentElement

/-- The loop exit of `operator()`: record the final counters and pick up
any text lingering after the last `>`. -/
def extractFinish (buf : List Nat) (endSent : Nat) (includeOuterText : Bool)
    (st : Engine) (endp : Option Nat) : Engine :=
  match endp with
  | none => st.markCounters
  | some e =>
    if e < endSent ∧ includeOuterText then (st.markCounters).rawText buf e (endSent - e)
    else st.markCounters

/-- The prologue of `operator()` shared by the public entry point and the
recursive metadata re-parses: reset the state, validate the input, decode
any leading outer text, and enter the main loop `go`.  The input pointer is
`(buffer, offset)`; `none` models a null `html_text`. -/
def extractPrologue (go : List Nat → Nat → Bool → Engine → Nat → Option Nat → Engine)
    (html : Option (List Nat × Nat)) (textLength : Nat)
    (includeOuterText preserveNewlines : Bool) : Engine × Option (List Nat) :=
  let st0 := initialEngine preserveNewlines
  match html with
  | none => (st0, none)
  | some (buf, pos) =>
    if wat buf pos = 0 ∨ textLength = 0 then (st0, none)
    else
      match wcschr buf pos 60 with
      | none =>
        let st1 := if includeOuterText then st0.rawText buf pos textLength else st0
        (st1, some st1.buffer)
      | some s =>
        let st1 :=
          if pos < s ∧ includeOuterText then st0.rawText buf pos (min (s - pos) textLength)
          else st0
        let st2 := go buf (pos + textLength) includeOuterText st1 s none
        (st2, some st2.buffer)

/-- Fuel-indexed main loop of `operator()` (one unit of fuel per loop
iteration; the recursive metadata re-parses run on the remaining fuel).
The counter trace is extended at every iteration entry. -/
def extractLoopF : Nat → List Nat → Nat → Bool → Engine → Nat → Option Nat → Engine
  | 0, buf, endSent, io, st, _, endp => extractFinish buf endSent io st endp
  | fuel + 1, buf, endSent, io, st, start, endp =>
    if start < endSent then
      match extractBranch
          (fun cbuf cpos clen =>
            extractPrologue (extractLoopF fuel) (some (cbuf, cpos)) clen true false)
          buf endSent st.markCounters start endp with
      | .halt st1 ep => extractFinish buf endSent io st1 ep
      | .cont st1 s1 ep => extractLoopF fuel buf endSent io st1 s1 ep
      | .fall st1 isSym e =>
        match wcschr buf e 60 with
        | none => extractFinish buf endSent io st1 (some e)
        | some ns =>
          if ns ≥ endSent then extractFinish buf endSent io st1 (some e)
          else
            let st2 := st1.rawText buf e (ns - e)
            let st3 :=
              if isSym then
                Engine.snap { st2 with
                  buffer := st2.buffer.take st1.buffer.length ++
                    convert_symbol_font_section (st2.buffer.drop st1.buffer.length),
                  log := st2.log ++
                    (if convert_symbol_font_section (st2.buffer.drop st1.buffer.length) ≠ [] then
                      [wstr "Symbol font used for the following: \"" ++
                        convert_symbol_font_section (st2.buffer.drop st1.buffer.length) ++ [34]]
                     else []) }
              else st2
            let st4 :=
              if matchListAtCI buf ns (wstr "</pre>") then
                if st3.preformatted > 0 then { st3 with preformatted := st3.preformatted - 1 }
                else st3
              else if matchListAtCI buf ns (wstr "</sup>") then
                if st3.superscript > 0 then { st3 with superscript := st3.superscript - 1 }
                else st3
              else if matchListAtCI buf ns (wstr "</sub>") then
                if st3.subscript > 0 then { st3 with subscript := st3.subscript - 1 }
                else st3
              else st3
            extractLoopF fuel buf endSent io st4 ns (some e)
    else extractFinish buf endSent io st endp

/-- `html_extract_text::operator()`: run a full extraction.  `prior` is the
engine state left over from any previous call; the prologue resets every
field, so the result never depends on it.  Returns the final engine state
and the returned text (`none` models the null return). -/
def extractRun (fuel : Nat) (prior : Engine) (html : Option (List Nat × Nat))
    (textLength : Nat) (includeOuterText preserveNewlines : Bool) :
    Engine × Option (List Nat) :=
  extractPrologue (extractLoopF fuel) html textLength includeOuterText preserveNewlines

/-- The engine carried by a branch outcome. -/
def branchOutEngine : BranchOut → Engine
  | .halt st _ => st
  | .cont st _ _ => st
  | .fall st _ _ => st

/-- The counter invariant of the engine together with its recorded
history: the three state counters are non-negative now and were
non-negative at every recorded step. -/
def EngOk (st : Engine) : Prop :=
  (0 ≤ st.preformatted ∧ 0 ≤ st.superscript ∧ 0 ≤ st.subscript) ∧
  (∀ t ∈ st.counters, 0 ≤ t.1 ∧ 0 ≤ t.2.1 ∧ 0 ≤ t.2.2)

/-- Scan a list for the first occurrence of `c`, reporting its index offset
by `i` (helper for the `std::wstring` searches below). -/
def wfindAux (c : Nat) : List Nat → Nat → Option Nat
  | [], _ => none
  | x :: xs, i => if x = c then some i else wfindAux c xs (i + 1)

/-- Model of `std::wstring::find(c, start)`: index of the first occurrence
of `c` at or after `start` (`none` for `npos`). -/
def wfind (l : List Nat) (c : Nat) (start : Nat) : Option Nat :=
  (wfindAux c (l.drop start) 0).map (· + start)

/-- Model of `std::wstring::rfind(c, pos)`: index of the last occurrence of
`c` at or before `pos` (the search start is clamped to the last character,
as in the C++ standard library). -/
def wrfindLe (l : List Nat) (c : Nat) (pos : Nat) : Option Nat :=
  let m := min (pos + 1) l.length
  (wfindAux c (l.take m).reverse 0).map (fun j => m - 1 - j)

/-- Model of `std::wstring::rfind(c)`: index of the last occurrence of `c`
anywhere in the string. -/
def wrfind (l : List Nat) (c : Nat) : Option Nat :=
  (wfindAux c l.reverse 0).map (fun j => l.length - 1 - j)

/-- Model of `size_t` subtraction: wraps modulo `2^64`, so `0 - 1` becomes
the huge value the C++ code then passes to a clamping `rfind`. -/
def sub64 (a b : Nat) : Nat := (a + 18446744073709551616 - b) % 18446744073709551616

/-- `html_url_format::find_last_directory`: record the query marker, find
the last path separator (backing up before the query if the query follows
it), and append a trailing `/` when the URL ends at the protocol slashes or
has no separator at all.  Returns the (possibly extended) URL, the
last-separator index and the query index. -/
def find_last_directory (url : List Nat) : List Nat × Nat × Option Nat :=
  let query := wrfind url 63
  let ls0 := wrfind url 47
  let ls1 :=
    match query, ls0 with
    | some q, some ls => if 0 < q ∧ 0 < ls ∧ q < ls then wrfindLe url 47 (q - 1) else some ls
    | _, _ => ls0
  match ls1 with
  | none => (url ++ [47], url.length, query)
  | some ls =>
    if 0 < ls ∧ wat url (ls - 1) = 47 then (url ++ [47], url.length, query)
    else (url, ls, query)

/-- `html_url_format::parse_domain`: strip a known protocol prefix, cut the
full domain at the first path separator, then locate the last two
dot-separated labels to produce the domain and subdomain.  The C++ routine
clears `full_domain` and `domain` but leaves `subdomain` untouched on the
early-return paths, so the caller's previous subdomain is a parameter. -/
def parse_domain (url : List Nat) (subdomain0 : List Nat) :
    List Nat × List Nat × List Nat :=
  let startIndex : Nat :=
    if matchListAtCI url 0 (wstr "http://") then 7
    else if matchListAtCI url 0 (wstr "https://") then 8
    else if matchListAtCI url 0 (wstr "ftp://") then 6
    else if matchListAtCI url 0 (wstr "ftps://") then 7
    else 0
  let lastSlash : Option Nat := wfind url 47 startIndex
  let full_domain : List Nat := match lastSlash with | none => url | some ls => url.take ls
  let dot1 : Option Nat :=
    match lastSlash with
    | none => wrfind full_domain 46
    | some ls => wrfindLe full_domain 46 ls
  match dot1 with
  | none => (full_domain, [], subdomain0)
  | some d1 =>
    if d1 = 0 then (full_domain, [], subdomain0)
    else
      let dd : Option Nat := wrfindLe full_domain 46 (d1 - 1)
      let d : Nat :=
        match dd with
        | some d2 => d2 + 1
        | none => startIndex
      let cnt : Nat :=
        match lastSlash with
        | none => full_domain.length - d
        | some ls => ls - d
      let domain : List Nat := wslice full_domain d cnt
      let subdomain : List Nat :=
        if d ≠ startIndex ∧ 2 < d then
          match wrfindLe full_domain 46 (d - 2) with
          | some d3 =>
            wslice full_domain (d3 + 1)
              (match lastSlash with
               | none => full_domain.length - (d3 + 1)
               | some ls => ls - (d3 + 1))
          | none => domain
        else domain
      (full_domain, domain, subdomain)

/-- `html_url_format::parse_image_name_from_url`: the value of an `image=`
parameter inside the query part of a URL (used to repair PHP image links
that are bare directories). -/
def parse_image_name_from_url (url : List Nat) : List Nat :=
  if wat url 0 = 0 then []
  else
    match wcschr url 0 63 with
    | none => []
    | some q =>
      match stristr url q (wstr "image=") with
      | none => []
      | some s0 =>
        let s := s0 + 6
        match wcschr url s 38 with
        | none => (url.drop s).takeWhile (fun c => c != 0)
        | some e => wslice url s (e - s)

/-- Modelled from the spec: `is_absolute_url` (declared in a header that is
not part of the provided sources) recognises a path that is already an
absolute URL; a path is taken as absolute when it carries a protocol
separator `://`. -/
def is_absolute_url (url : List Nat) : Bool := containsSub (wstr "://") url

/-- Model of `string_util::replace_all(url, L" ", 1, L"%20")`: percent-encode
every space. -/
def replace_all_spaces (l : List Nat) : List Nat :=
  l.foldr (fun c acc => if c = 32 then 37 :: 50 :: 48 :: acc else c :: acc) []

/-- Count of leading `../` groups in `path` (`folderLevelsToGoUp` of the
parent-relative branch); the scan starts at the second group, the caller
having already matched the first. -/
def countParentF : Nat → List Nat → Nat → Nat
  | 0, _, k => k
  | fuel + 1, p, k =>
    if matchListAt p (3 * k) (wstr "../") then countParentF fuel p (k + 1) else k

/-- The walk-back loop of the parent-relative branch: move `lastSlash` to
the previous path separator once per folder level, stopping early when the
root URL runs out of separators. -/
def walkBackF : Nat → List Nat → Nat → Nat → Nat
  | 0, _, _, ls => ls
  | fuel + 1, root, levels, ls =>
    match levels with
    | 0 => ls
    | l + 1 =>
      match wrfindLe root 47 (sub64 ls 1) with
      | none => ls
      | some c => walkBackF fuel root l c

/-- The state of an `html_url_format` instance after construction: the
(possibly `/`-extended) root URL, the cached last-separator and query
positions, the root's full domain and the cached `image=` value. -/
structure UrlFormat where
  root_url : List Nat
  last_slash : Nat
  query : Option Nat
  root_full_domain : List Nat
  image_name : List Nat
deriving DecidableEq

/-- `html_url_format::html_url_format(root_url)`: run `find_last_directory`
(which may extend the stored root URL), parse the root's domain, and cache
the `image=` query value when the root has a query. -/
def html_url_format_init (root : List Nat) : UrlFormat :=
  let fld := find_last_directory root
  let rootU := fld.1
  let ls := fld.2.1
  let q := fld.2.2
  let pd := parse_domain rootU []
  { root_url := rootU, last_slash := ls, query := q, root_full_domain := pd.1,
    image_name := if q.isSome then parse_image_name_from_url rootU else [] }

/-- `html_url_format::operator()(path, text_length, is_image)`: resolve a
relative path against the root URL by prefix classification (absolute,
query-only, root-relative, current-directory-relative, parent-relative,
plain relative), chop any `#bookmark`, append the cached image name to a
bare directory when resolving an image, and percent-encode spaces. -/
def html_url_resolve (fmt : UrlFormat) (path : Option (List Nat))
    (textLength : Nat) (isImage : Bool) : Option (List Nat) :=
  match path with
  | none => none
  | some p =>
    if textLength = 0 then none
    else
      let cur :=
        if is_absolute_url p then p.take textLength
        else if wat p 0 = 63 ∧ fmt.query.isSome then
          fmt.root_url.take (fmt.query.getD 0) ++ p.take textLength
        else if wat p 0 = 47 then
          let c0 := fmt.root_full_domain
          let c1 := if 1 < c0.length ∧ wat c0 (c0.length - 1) ≠ 47 then c0 ++ [47] else c0
          c1 ++ (p.drop 1).take (textLength - 1)
        else if matchListAtCI p 0 (wstr "./") then
          fmt.root_url.take (fmt.last_slash + 1) ++ (p.drop 2).take (textLength - 2)
        else if matchListAt p 0 (wstr "../") then
          let k := countParentF (p.length + 1) p 1
          let ls0 := walkBackF (k + 1) fmt.root_url k (sub64 fmt.last_slash 1)
          let ls1 :=
            if ls0 < sub64 fmt.root_url.length 2 ∧ 0 < ls0 ∧
                (wat fmt.root_url (ls0 - 1) = 47 ∨ wat fmt.root_url (ls0 + 1) = 47) then
              wfind fmt.root_url 47 (ls0 + 2)
            else some ls0
          let base :=
            match ls1 with
            | none => fmt.root_url
            | some l => fmt.root_url.take (l + 1)
          base ++ (p.drop (3 * k)).take (textLength - 3 * k)
        else fmt.root_url.take (fmt.last_slash + 1) ++ p.take textLength
      let cur2 := match wrfind cur 35 with | none => cur | some b => cur.take b
      let cur3 :=
        if isImage ∧ 1 < cur2.length ∧ wat cur2 (cur2.length - 1) = 47 then
          cur2 ++ fmt.image_name
        else cur2
      some (replace_all_spaces cur3)

/-! ### Theorems -/

theorem fceStep_cases (buf : List Nat) (element : List Nat) (s : Int) (start : Nat) :
    fceStep buf element s start = s - 1 ∨ fceStep buf element s start = s + 1 ∨
    fceStep buf element s start = s := by
  unfold fceStep
  split
  · exact Or.inl rfl
  · split
    · exact Or.inr (Or.inl rfl)
    · exact Or.inr (Or.inr rfl)

theorem fceStep_pos {buf : List Nat} {element : List Nat} {s : Int} {start : Nat}
    (hs : 1 ≤ s) (hnz : fceStep buf element s start ≠ 0) :
    1 ≤ fceStep buf element s start := by
  rcases fceStep_cases buf element s start with h | h | h <;> omega

theorem fceStep_zero_closing {buf : List Nat} {element : List Nat} {s : Int} {start : Nat}
    (hs : 1 ≤ s) (hz : fceStep buf element s start = 0) :
    wat buf (start + 1) = 47 ∧ compare_element buf (start + 2) element true = true := by
  unfold fceStep at hz
  split at hz
  case isTrue h =>
    simp only [Bool.and_eq_true, decide_eq_true_eq] at h
    exact h
  case isFalse h => split at hz <;> omega

theorem fceLoop_closing {buf : List Nat} {sectionEnd : Nat} {element : List Nat} :
    ∀ (fuel : Nat) (stackSize : Int) (startOpt : Option Nat) (p : Nat),
      1 ≤ stackSize →
      fceLoop buf sectionEnd element fuel stackSize startOpt = some p →
      wat buf (p + 1) = 47 ∧ compare_element buf (p + 2) element true = true := by
  intro fuel
  induction fuel with
  | zero => intro s so p hs h; simp [fceLoop] at h
  | succ fuel IH =>
    intro s so p hs h
    match so with
    | none => simp [fceLoop] at h
    | some start =>
      simp only [fceLoop] at h
      split at h
      case isTrue hin =>
        split at h
        case isTrue hz =>
          cases h
          exact fceStep_zero_closing hs hz
        case isFalse hnz =>
          exact IH _ _ _ (fceStep_pos hs hnz) h
      case isFalse => simp at h

/-- C5: `find_closing_element` performs a stack-balanced scan and returns
the position of the `<` of the correctly balanced closing tag (so any
returned position opens a closing tag of the element), or `none` if the
buffer ends first; in particular, for `<div><div>X</div></div>` it returns
the position of the second (outer) `</div>` at index 17, not the first one
at index 11, and for the unterminated `<div><div>X</div>` it returns
`none`. -/
theorem claim5_find_closing_element :
    (∀ (buf : List Nat) (sectionStart sectionEnd : Nat) (element : List Nat) (p : Nat),
        find_closing_element buf sectionStart sectionEnd element = some p →
        wat buf (p + 1) = 47 ∧ compare_element buf (p + 2) element true = true) ∧
    find_closing_element (wstr "<div><div>X</div></div>") 0 23 (wstr "div") = some 17 ∧
    matchListAt (wstr "<div><div>X</div></div>") 11 (wstr "</div>") = true ∧
    find_closing_element (wstr "<div><div>X</div>") 0 17 (wstr "div") = none := by
  refine ⟨?_, by decide, by decide, by decide⟩
  intro buf s e elem p h
  unfold find_closing_element at h
  split at h
  · exact absurd h (by simp)
  split at h
  · exact absurd h (by simp)
  case isFalse st hw =>
    split at h
    · exact absurd h (by simp)
    split at h
    · exact fceLoop_closing _ _ _ _ (by omega) h
    split at h
    case isTrue hcond =>
      cases h
      simp only [Bool.and_eq_true, decide_eq_true_eq] at hcond
      constructor
      · simpa using hcond.1
      · simpa using hcond.2
    case isFalse =>
      exact fceLoop_closing _ _ _ _ (by omega) h

/-- Witness for C5 at a concrete input: on `<div><div>X</div></div>` the
scan returns 17, and index 17 indeed opens a `</div>` closing tag. -/
theorem claim5_find_closing_element_witness :
    wat (wstr "<div><div>X</div></div>") 18 = 47 ∧
    compare_element (wstr "<div><div>X</div></div>") 19 (wstr "div") true = true :=
  claim5_find_closing_element.1 (wstr "<div><div>X</div></div>") 0 23 (wstr "div") 17
    (by decide)

/-- C7 counterexample: searching `ab` in `aab` finds nothing even though an
occurrence exists at index 1 outside any quotes (the text has no quote
characters at all) — because after the partial mismatch at position 0 the
scan resumes two characters later, not one, skipping the overlapping
candidate. -/
theorem claim7_one_past_counterexample :
    stristr_not_quoted (wstr "aab") 0 3 (wstr "ab") = none ∧
    matchListAtCI (wstr "aab") 1 (wstr "ab") = true ∧
    (34 : Nat) ∉ wstr "aab" ∧ (39 : Nat) ∉ wstr "aab" := by decide

/-- C7 (amended): on a partial mismatch after matching `k` characters of
the needle, the scan resumes `k + 1` characters past the attempt position
(one character past on an immediate mismatch), so overlapping candidates
can be skipped — searching `ab` in `aab` finds nothing, while searching
`ab` in `xab` still finds index 1; a complete match found inside quotes is
skipped by advancing the match length — in `"ab"ab` the quoted match at
index 1 is skipped and index 4 is returned. -/
theorem claim7_advance_behavior :
    stristr_not_quoted (wstr "aab") 0 3 (wstr "ab") = none ∧
    stristr_not_quoted (wstr "xab") 0 3 (wstr "ab") = some 1 ∧
    stristr_not_quoted (wstr "\"ab\"ab") 0 6 (wstr "ab") = some 4 ∧
    matchListAtCI (wstr "\"ab\"ab") 1 (wstr "ab") = true := by decide

/-- C10: `convert_symbol_font_section` is length-preserving and pointwise:
character `i` of the result is the symbol-table mapping of character `i` of
the input, and equals the input character when the table has no entry for
it. -/
theorem claim10_convert_symbol_font_section :
    ∀ s : List Nat,
      (convert_symbol_font_section s).length = s.length ∧
      ∀ i, i < s.length →
        (convert_symbol_font_section s).getD i 0 = symbol_font_find (s.getD i 0) ∧
        (SYMBOL_FONT_TABLE.lookup (s.getD i 0) = none →
          (convert_symbol_font_section s).getD i 0 = s.getD i 0) := by
  intro s
  refine ⟨by simp [convert_symbol_font_section], ?_⟩
  intro i hi
  have hmap : (convert_symbol_font_section s).getD i 0 = symbol_font_find (s.getD i 0) := by
    simp only [convert_symbol_font_section]
    rw [List.getD_eq_getElem?_getD, List.getD_eq_getElem?_getD, List.getElem?_map,
      List.getElem?_eq_getElem hi]
    rfl
  refine ⟨hmap, ?_⟩
  intro hnone
  rw [hmap]
  unfold symbol_font_find
  rw [hnone]

/-- Witness for C10 at a concrete input: the digit `1` (code 49) has no
symbol-table entry and is left unchanged. -/
theorem claim10_convert_symbol_font_section_witness :
    (convert_symbol_font_section [49]).getD 0 0 = [49].getD 0 0 :=
  ((claim10_convert_symbol_font_section [49]).2 0 (by decide)).2 (by decide)

theorem parseRawF_zero (pre sup sub : Int) (buf : List Nat) (f p : Nat) :
    parseRawF pre sup sub buf f p 0 = ([], []) := by
  cases f <;> simp [parseRawF]

theorem strcspnPointerF_skip (buf : List Nat) (accepts : List Nat) :
    ∀ (fuel i j : Nat), i ≤ j → j - i < fuel →
      (∀ k, i ≤ k → k < j → wat buf k ∉ accepts ∧ wat buf k ≠ 0) →
      wat buf j ∈ accepts → wat buf j ≠ 0 →
      strcspnPointerF buf accepts fuel i = some j := by
  intro fuel
  induction fuel with
  | zero => intro i j h1 h2 h3 h4 h5; omega
  | succ fuel IH =>
    intro i j hij hlt hmid hj hjz
    simp only [strcspnPointerF]
    by_cases hii : i = j
    · subst hii
      rw [if_neg hjz, if_pos hj]
    · have hi := hmid i (Nat.le_refl _) (by omega)
      rw [if_neg hi.2, if_neg hi.1]
      exact IH (i + 1) j (by omega) (by omega)
        (fun k hk1 hk2 => hmid k (by omega) hk2) hj hjz

theorem parse_raw_text_entity_step (pre sup sub : Int) (buf : List Nat) (sem : Nat)
    (h0 : wat buf 0 = 38)
    (hsem : strcspn_pointer buf 1 [59, 60, 32, 9, 10, 13] = some sem)
    (hwsp : iswspaceW (wat buf 1) = false)
    (hhash : wat buf 1 = 35) :
    (parse_raw_text pre sup sub buf 0 (sem + 1)).1 =
      (numericEntityEmit buf 0 (sem + 1) 0 sem).1 := by
  unfold parse_raw_text
  simp only [parseRawF]
  rw [if_neg (by omega : ¬ sem + 1 = 0)]
  have hidx : (if pre > 0 then strncspn buf 0 [38, 36] (sem + 1)
      else strncspn buf 0 [13, 10, 38, 36] (sem + 1)) = 0 := by
    have h38 : ∀ l : List Nat, (38 : Nat) ∈ l → strncspn buf 0 l (sem + 1) = 0 := by
      intro l hmem
      simp only [strncspn]
      rw [if_pos (by rw [h0]; exact hmem)]
    split
    · exact h38 _ (by simp)
    · exact h38 _ (by simp)
  rw [hidx]
  rw [if_pos (by omega : 0 < sem + 1)]
  simp only [Nat.add_zero, Nat.zero_add]
  rw [if_pos h0]
  split
  case h_1 heq => rw [hsem] at heq; cases heq
  case h_2 sem1 heq =>
    rw [hsem] at heq
    cases heq
    rw [if_neg (by omega : ¬ sem > sem + 1)]
    rw [if_neg (by simp [hwsp] : ¬ iswspaceW (wat buf 1) = true)]
    rw [if_pos hhash]
    rw [show sem + 1 - (sem + 1 - 0) = 0 by omega]
    simp

theorem wat_cons_succ (a : Nat) (l : List Nat) (n : Nat) :
    wat (a :: l) (n + 1) = wat l n := by simp [wat]

theorem wat_entity_digit (pfx0 pfx1 : Nat) (ds : List Nat) (m : Nat) (hm : m < ds.length) :
    wat (pfx0 :: pfx1 :: (ds ++ [59])) (m + 2) = ds.getD m 0 := by
  rw [show m + 2 = (m + 1) + 1 from rfl, wat_cons_succ, wat_cons_succ]
  exact List.getD_append _ _ _ _ hm

theorem wat_entity_semicolon (pfx0 pfx1 : Nat) (ds : List Nat) :
    wat (pfx0 :: pfx1 :: (ds ++ [59])) (ds.length + 2) = 59 := by
  rw [show ds.length + 2 = (ds.length + 1) + 1 from rfl, wat_cons_succ, wat_cons_succ]
  exact (List.getD_append_right _ _ _ _ (Nat.le_refl _)).trans (by simp)

theorem entity_digit_mem (ds : List Nat) (m : Nat) (hm : m < ds.length) :
    ds.getD m 0 ∈ ds := by
  rw [List.getD_eq_getElem _ _ hm]
  exact List.getElem_mem _

theorem numeric_entity_decimal (pre sup sub : Int) (ds : List Nat) (v : Nat)
    (hne : ds ≠ [])
    (hds : ∀ c ∈ ds, 48 ≤ c ∧ c ≤ 57)
    (hv : atoiW ([38, 35] ++ ds ++ [59]) 2 = v)
    (hlt : v < 4294967296) :
    (parse_raw_text pre sup sub ([38, 35] ++ ds ++ [59]) 0 (ds.length + 3)).1 =
      (if v = 173 then []
       else if 0xFB00 ≤ v ∧ v ≤ 0xFB06 then ligatureExpansion v
       else if v ≠ 0 then [v]
       else [38, 35] ++ ds ++ [59]) := by
  have hlen0 : 0 < ds.length := by cases ds with
    | nil => exact absurd rfl hne
    | cons a l => simp
  have hbuf : ([38, 35] ++ ds ++ [59] : List Nat) = 38 :: 35 :: (ds ++ [59]) := by simp
  have hlen : ([38, 35] ++ ds ++ [59] : List Nat).length = ds.length + 3 := by
    simp
  have hmid : ∀ k, 1 ≤ k → k < ds.length + 2 →
      wat ([38, 35] ++ ds ++ [59]) k ∉ ([59, 60, 32, 9, 10, 13] : List Nat) ∧
      wat ([38, 35] ++ ds ++ [59]) k ≠ 0 := by
    intro k hk1 hk2
    by_cases h1 : k = 1
    · subst h1
      rw [hbuf]
      simp [wat]
    · obtain ⟨m, rfl⟩ : ∃ m, k = m + 2 := ⟨k - 2, by omega⟩
      have hm : m < ds.length := by omega
      rw [hbuf, wat_entity_digit _ _ _ _ hm]
      have := hds _ (entity_digit_mem ds m hm)
      constructor
      · simp only [List.mem_cons, List.not_mem_nil, or_false, not_or]
        omega
      · omega
  have hsem : strcspn_pointer ([38, 35] ++ ds ++ [59]) 1 [59, 60, 32, 9, 10, 13] =
      some (ds.length + 2) := by
    unfold strcspn_pointer
    rw [hlen]
    refine strcspnPointerF_skip _ _ _ 1 (ds.length + 2) (by omega) (by omega) hmid ?_ ?_
    · rw [hbuf, wat_entity_semicolon]
      simp
    · rw [hbuf, wat_entity_semicolon]
      omega
  have h1 : wat ([38, 35] ++ ds ++ [59]) 1 = 35 := by rw [hbuf]; rfl
  have hstep := parse_raw_text_entity_step pre sup sub ([38, 35] ++ ds ++ [59])
    (ds.length + 2) (by rw [hbuf]; rfl) hsem (by rw [h1]; rfl) h1
  rw [show ds.length + 3 = ds.length + 2 + 1 from rfl, hstep]
  have hw2 : wat ([38, 35] ++ ds ++ [59]) 2 = ds.getD 0 0 := by
    rw [hbuf, show (2 : Nat) = 0 + 2 from rfl, wat_entity_digit _ _ _ _ hlen0]
  have hd0 := hds _ (entity_digit_mem ds 0 hlen0)
  simp only [numericEntityEmit, Nat.add_zero, Nat.zero_add]
  rw [if_neg (show ¬ (wat ([38, 35] ++ ds ++ [59]) 2 = 120 ∨
      wat ([38, 35] ++ ds ++ [59]) 2 = 88) by rw [hw2]; push_neg; omega)]
  rw [hv, Nat.mod_eq_of_lt hlt]
  by_cases h173 : v = 173
  · rw [if_pos h173, if_pos h173]
  · rw [if_neg h173, if_neg h173]
    by_cases hlig : 0xFB00 ≤ v ∧ v ≤ 0xFB06
    · rw [if_pos hlig, if_pos hlig]
    · rw [if_neg hlig, if_neg hlig]
      by_cases hz : v = 0
      · rw [if_neg (by omega : ¬ v ≠ 0), if_neg (by omega : ¬ v ≠ 0)]
        show wslice ([38, 35] ++ ds ++ [59]) 0 (ds.length + 2 + 1 - 0) = [38, 35] ++ ds ++ [59]
        rw [show ds.length + 2 + 1 - 0 = ds.length + 3 from rfl]
        unfold wslice
        rw [List.drop_zero, ← hlen, List.take_length]
      · rw [if_pos hz, if_pos hz]

theorem wat_entity_digit3 (p0 p1 p2 : Nat) (hs : List Nat) (m : Nat) (hm : m < hs.length) :
    wat (p0 :: p1 :: p2 :: (hs ++ [59])) (m + 3) = hs.getD m 0 := by
  rw [show m + 3 = (m + 2) + 1 from rfl, wat_cons_succ, wat_entity_digit _ _ _ _ hm]

theorem wat_entity_semicolon3 (p0 p1 p2 : Nat) (hs : List Nat) :
    wat (p0 :: p1 :: p2 :: (hs ++ [59])) (hs.length + 3) = 59 := by
  rw [show hs.length + 3 = (hs.length + 2) + 1 from rfl, wat_cons_succ, wat_entity_semicolon]

theorem numeric_entity_hex (pre sup sub : Int) (hs : List Nat) (v : Nat)
    (hne : hs ≠ [])
    (hds : ∀ c ∈ hs, (48 ≤ c ∧ c ≤ 57) ∨ (97 ≤ c ∧ c ≤ 102) ∨ (65 ≤ c ∧ c ≤ 70))
    (hv : axtoi ([38, 35, 120] ++ hs ++ [59]) 3 (hs.length + 1) 0 = v)
    (hlt : v < 4294967296) :
    (parse_raw_text pre sup sub ([38, 35, 120] ++ hs ++ [59]) 0 (hs.length + 4)).1 =
      (if v = 173 then []
       else if 0xFB00 ≤ v ∧ v ≤ 0xFB06 then ligatureExpansion v
       else if v ≠ 0 then [v]
       else [38, 35, 120] ++ hs ++ [59]) := by
  have hbuf : ([38, 35, 120] ++ hs ++ [59] : List Nat) = 38 :: 35 :: 120 :: (hs ++ [59]) := by
    simp
  have hlen : ([38, 35, 120] ++ hs ++ [59] : List Nat).length = hs.length + 4 := by simp
  have hmid : ∀ k, 1 ≤ k → k < hs.length + 3 →
      wat ([38, 35, 120] ++ hs ++ [59]) k ∉ ([59, 60, 32, 9, 10, 13] : List Nat) ∧
      wat ([38, 35, 120] ++ hs ++ [59]) k ≠ 0 := by
    intro k hk1 hk2
    by_cases h1 : k = 1
    · subst h1
      rw [hbuf]
      simp [wat]
    by_cases h2 : k = 2
    · subst h2
      rw [hbuf]
      simp [wat]
    · obtain ⟨m, rfl⟩ : ∃ m, k = m + 3 := ⟨k - 3, by omega⟩
      have hm : m < hs.length := by omega
      rw [hbuf, wat_entity_digit3 _ _ _ _ _ hm]
      have hb := hds _ (entity_digit_mem hs m hm)
      constructor
      · simp only [List.mem_cons, List.not_mem_nil, or_false, not_or]
        rcases hb with h | h | h <;> omega
      · rcases hb with h | h | h <;> omega
  have hsem : strcspn_pointer ([38, 35, 120] ++ hs ++ [59]) 1 [59, 60, 32, 9, 10, 13] =
      some (hs.length + 3) := by
    unfold strcspn_pointer
    rw [hlen]
    refine strcspnPointerF_skip _ _ _ 1 (hs.length + 3) (by omega) (by omega) hmid ?_ ?_
    · rw [hbuf, wat_entity_semicolon3]
      simp
    · rw [hbuf, wat_entity_semicolon3]
      omega
  have h1 : wat ([38, 35, 120] ++ hs ++ [59]) 1 = 35 := by rw [hbuf]; rfl
  have hstep := parse_raw_text_entity_step pre sup sub ([38, 35, 120] ++ hs ++ [59])
    (hs.length + 3) (by rw [hbuf]; rfl) hsem (by rw [h1]; rfl) h1
  rw [show hs.length + 4 = hs.length + 3 + 1 from rfl, hstep]
  have hw2 : wat ([38, 35, 120] ++ hs ++ [59]) 2 = 120 := by rw [hbuf]; rfl
  simp only [numericEntityEmit, Nat.add_zero, Nat.zero_add]
  rw [if_pos (show wat ([38, 35, 120] ++ hs ++ [59]) 2 = 120 ∨
      wat ([38, 35, 120] ++ hs ++ [59]) 2 = 88 from Or.inl hw2)]
  rw [show hs.length + 3 + 1 - 3 = hs.length + 1 by omega]
  rw [hv, Nat.mod_eq_of_lt hlt]
  by_cases h173 : v = 173
  · rw [if_pos h173, if_pos h173]
  · rw [if_neg h173, if_neg h173]
    by_cases hlig : 0xFB00 ≤ v ∧ v ≤ 0xFB06
    · rw [if_pos hlig, if_pos hlig]
    · rw [if_neg hlig, if_neg hlig]
      by_cases hz : v = 0
      · rw [if_neg (by omega : ¬ v ≠ 0), if_neg (by omega : ¬ v ≠ 0)]
        show wslice ([38, 35, 120] ++ hs ++ [59]) 0 (hs.length + 3 + 1 - 0) =
          [38, 35, 120] ++ hs ++ [59]
        rw [show hs.length + 3 + 1 - 0 = hs.length + 4 from rfl]
        unfold wslice
        rw [List.drop_zero, ← hlen, List.take_length]
      · rw [if_pos hz, if_pos hz]

/-- C3 counterexample: the numeric reference `&#0;` (code point 0) does not
produce empty output — the decoder logs a diagnostic and copies the raw
entity text `&#0;` verbatim into the output. -/
theorem claim3_numeric_entity_counterexample :
    (parse_raw_text 0 0 0 (wstr "&#0;") 0 4).1 = wstr "&#0;" ∧ wstr "&#0;" ≠ [] := by decide

/-- C3 (amended): for a numeric character reference `&#NNN;` or `&#xHH;`
given to the raw-text decoder, the decoder appends exactly the single
character with that code point, except that code point 173 (soft hyphen)
produces no output at all, code points 0xFB00 through 0xFB06 expand to the
sequences ff, fi, fl, ffi, ffl, ft, st, and code point 0 (which also
results from a failed conversion) copies the raw entity text verbatim and
logs a diagnostic instead of being dropped. -/
theorem claim3_numeric_entity_decoding :
    (∀ (pre sup sub : Int) (ds : List Nat) (v : Nat),
        ds ≠ [] → (∀ c ∈ ds, 48 ≤ c ∧ c ≤ 57) →
        atoiW ([38, 35] ++ ds ++ [59]) 2 = v → v < 4294967296 →
        (parse_raw_text pre sup sub ([38, 35] ++ ds ++ [59]) 0 (ds.length + 3)).1 =
          (if v = 173 then []
           else if 0xFB00 ≤ v ∧ v ≤ 0xFB06 then ligatureExpansion v
           else if v ≠ 0 then [v]
           else [38, 35] ++ ds ++ [59])) ∧
    (∀ (pre sup sub : Int) (hs : List Nat) (v : Nat),
        hs ≠ [] →
        (∀ c ∈ hs, (48 ≤ c ∧ c ≤ 57) ∨ (97 ≤ c ∧ c ≤ 102) ∨ (65 ≤ c ∧ c ≤ 70)) →
        axtoi ([38, 35, 120] ++ hs ++ [59]) 3 (hs.length + 1) 0 = v → v < 4294967296 →
        (parse_raw_text pre sup sub ([38, 35, 120] ++ hs ++ [59]) 0 (hs.length + 4)).1 =
          (if v = 173 then []
           else if 0xFB00 ≤ v ∧ v ≤ 0xFB06 then ligatureExpansion v
           else if v ≠ 0 then [v]
           else [38, 35, 120] ++ hs ++ [59])) :=
  ⟨numeric_entity_decimal, numeric_entity_hex⟩

/-- Witness for C3 at concrete inputs: `&#960;` decodes to the single
character U+03C0 and `&#x3C0;` does too. -/
theorem claim3_numeric_entity_decoding_witness :
    (parse_raw_text 0 0 0 ([38, 35] ++ [57, 54, 48] ++ [59]) 0 6).1 = [960] ∧
    (parse_raw_text 0 0 0 ([38, 35, 120] ++ [51, 67, 48] ++ [59]) 0 7).1 = [960] := by
  constructor
  · have h := claim3_numeric_entity_decoding.1 0 0 0 [57, 54, 48] 960
      (by decide) (by decide) (by decide) (by decide)
    rw [show ([57, 54, 48] : List Nat).length + 3 = 6 from rfl] at h
    rw [if_neg (by decide), if_neg (by decide), if_pos (by decide)] at h
    exact h
  · have h := claim3_numeric_entity_decoding.2 0 0 0 [51, 67, 48] 960
      (by decide) (by decide) (by decide) (by decide)
    rw [show ([51, 67, 48] : List Nat).length + 4 = 7 from rfl] at h
    rw [if_neg (by decide), if_neg (by decide), if_pos (by decide)] at h
    exact h

theorem EngOk_emit {st : Engine} (cs : List Nat) (h : EngOk st) : EngOk (st.emit cs) := by
  simpa [EngOk, Engine.emit] using h

theorem EngOk_snap {st : Engine} (h : EngOk st) : EngOk st.snap := by
  simpa [EngOk, Engine.snap] using h

theorem EngOk_snapUpdate {st : Engine} (b : List Nat) (l : List (List Nat)) (h : EngOk st) :
    EngOk (Engine.snap { st with buffer := b, log := l }) := by
  simpa [EngOk, Engine.snap] using h

theorem EngOk_mark {st : Engine} (h : EngOk st) : EngOk st.markCounters := by
  obtain ⟨h1, h2⟩ := h
  refine ⟨h1, ?_⟩
  intro t ht
  simp only [Engine.markCounters, List.mem_append, List.mem_singleton] at ht
  rcases ht with ht | rfl
  · exact h2 t ht
  · exact h1

theorem EngOk_rawText {st : Engine} (buf : List Nat) (p s : Nat) (h : EngOk st) :
    EngOk (st.rawText buf p s) := by
  unfold Engine.rawText
  exact EngOk_snapUpdate _ _ h

theorem EngOk_rawTextPre {st : Engine} (buf : List Nat) (p s : Nat) (h : EngOk st) :
    EngOk (st.rawTextPreformatted buf p s) := by
  unfold Engine.rawTextPreformatted
  exact EngOk_snapUpdate _ _ h

theorem EngOk_setTitle {st : Engine} (v : List Nat) (h : EngOk st) :
    EngOk { st with title := v } := by simpa [EngOk] using h

theorem EngOk_setAuthor {st : Engine} (v : List Nat) (h : EngOk st) :
    EngOk { st with author := v } := by simpa [EngOk] using h

theorem EngOk_setDescription {st : Engine} (v : List Nat) (h : EngOk st) :
    EngOk { st with description := v } := by simpa [EngOk] using h

theorem EngOk_setKeywords {st : Engine} (v : List Nat) (h : EngOk st) :
    EngOk { st with keywords := v } := by simpa [EngOk] using h

theorem EngOk_setSubject {st : Engine} (v : List Nat) (h : EngOk st) :
    EngOk { st with subject := v } := by simpa [EngOk] using h

theorem EngOk_incPre {st : Engine} (h : EngOk st) :
    EngOk { st with preformatted := st.preformatted + 1 } := by
  obtain ⟨⟨a, b, c⟩, h2⟩ := h
  exact ⟨⟨show (0 : Int) ≤ st.preformatted + 1 by omega, b, c⟩, h2⟩

theorem EngOk_incSup {st : Engine} (h : EngOk st) :
    EngOk { st with superscript := st.superscript + 1 } := by
  obtain ⟨⟨a, b, c⟩, h2⟩ := h
  exact ⟨⟨a, show (0 : Int) ≤ st.superscript + 1 by omega, c⟩, h2⟩

theorem EngOk_incSub {st : Engine} (h : EngOk st) :
    EngOk { st with subscript := st.subscript + 1 } := by
  obtain ⟨⟨a, b, c⟩, h2⟩ := h
  exact ⟨⟨a, b, show (0 : Int) ≤ st.subscript + 1 by omega⟩, h2⟩

theorem EngOk_skipOut {st : Engine} (endp : Option Nat) (ts : TagSkip) (h : EngOk st) :
    EngOk (branchOutEngine (ts.out st endp)) := by
  cases ts <;> simpa [TagSkip.out, branchOutEngine] using h

theorem metaBranch_EngOk (ip : List Nat → Nat → Nat → Engine × Option (List Nat))
    (buf : List Nat) (st : Engine) (start : Nat) (endp : Option Nat) (h : EngOk st) :
    EngOk (branchOutEngine (metaBranch ip buf st start endp)) := by
  simp only [metaBranch]
  repeat' split
  all_goals simp only [branchOutEngine]
  all_goals
    first
    | exact h
    | exact EngOk_setAuthor _ h
    | exact EngOk_setDescription _ h
    | exact EngOk_setKeywords _ h

theorem titleBranch_EngOk (ip : List Nat → Nat → Nat → Engine × Option (List Nat))
    (buf : List Nat) (st : Engine) (start : Nat) (endp : Option Nat) (h : EngOk st) :
    EngOk (branchOutEngine (titleBranch ip buf st start endp)) := by
  simp only [titleBranch]
  repeat' split
  all_goals simp only [branchOutEngine]
  all_goals
    first
    | exact h
    | exact EngOk_setTitle _ h

theorem subjectBranch_EngOk (ip : List Nat → Nat → Nat → Engine × Option (List Nat))
    (buf : List Nat) (st : Engine) (start : Nat) (endp : Option Nat) (h : EngOk st) :
    EngOk (branchOutEngine (subjectBranch ip buf st start endp)) := by
  simp only [subjectBranch]
  repeat' split
  all_goals simp only [branchOutEngine]
  all_goals
    first
    | exact h
    | exact EngOk_setSubject _ h

theorem strayLtBranch_EngOk (buf : List Nat) (endSent : Nat) (st : Engine) (start : Nat)
    (h : EngOk st) : EngOk (branchOutEngine (strayLtBranch buf endSent st start)) := by
  simp only [strayLtBranch]
  repeat' split
  all_goals simp only [branchOutEngine]
  all_goals exact EngOk_rawText _ _ _ h

theorem cdataBranch_EngOk (buf : List Nat) (endSent : Nat) (st : Engine) (start : Nat)
    (h : EngOk st) : EngOk (branchOutEngine (cdataBranch buf endSent st start)) := by
  simp only [cdataBranch]
  repeat' split
  all_goals simp only [branchOutEngine]
  all_goals
    first
    | exact EngOk_rawTextPre _ _ _ h
    | exact EngOk_emit _ h

theorem genericElementUpdate_fst_EngOk (buf : List Nat) (endSent : Nat) (st : Engine)
    (start remaining : Nat) (ce : List Nat) (h : EngOk st) :
    EngOk (genericElementUpdate buf endSent st start remaining ce).1 := by
  rw [genericElementUpdate]
  by_cases h1 : stricmpEq ce (wstr "pre") = true
  · rw [if_pos h1]; exact EngOk_incPre h
  rw [if_neg h1]
  by_cases h2 : stricmpEq ce (wstr "sup") = true
  · rw [if_pos h2]; exact EngOk_incSup h
  rw [if_neg h2]
  by_cases h3 : stricmpEq ce (wstr "sub") = true
  · rw [if_pos h3]; exact EngOk_incSub h
  rw [if_neg h3]
  by_cases h4 : isNewParagraphElement ce = true
  · rw [if_pos h4]
    simp only []
    split
    · exact EngOk_emit _ (EngOk_emit _ h)
    · exact EngOk_emit _ h
  rw [if_neg h4]
  by_cases h5 : stricmpEq ce (wstr "br") = true
  · rw [if_pos h5]; exact EngOk_emit _ h
  rw [if_neg h5]
  by_cases h6 : 3 ≤ remaining ∧ wat buf start = 60 ∧ wat buf (start + 1) = 47
  · rw [if_pos h6]
    split
    · exact EngOk_emit _ h
    · exact h
  rw [if_neg h6]
  by_cases h7 : stricmpEq ce (wstr "li") = true
  · rw [if_pos h7]; exact EngOk_emit _ h
  rw [if_neg h7]
  by_cases h8 : stricmpEq ce (wstr "td") = true
  · rw [if_pos h8]; exact EngOk_emit _ h
  rw [if_neg h8]
  by_cases h9 : stricmpEq ce (wstr "dd") = true
  · rw [if_pos h9]; exact EngOk_emit _ h
  rw [if_neg h9]
  by_cases h10 : stricmpEq ce (wstr "a") = true
  · rw [if_pos h10]
    simp only []
    repeat' split
    all_goals
      first
      | exact h
      | exact EngOk_emit _ h
      | exact EngOk_emit _ (EngOk_emit _ h)
  rw [if_neg h10]
  by_cases h11 : stricmpEq ce (wstr "span") = true
  · rw [if_pos h11]
    simp only []
    repeat' split
    all_goals
      first
      | exact h
      | exact EngOk_emit _ h
      | exact EngOk_emit _ (EngOk_emit _ h)
  rw [if_neg h11]
  exact h

theorem genericBranch_EngOk (buf : List Nat) (endSent : Nat) (st : Engine)
    (start remaining : Nat) (ce : List Nat) (h : EngOk st) :
    EngOk (branchOutEngine (genericBranch buf endSent st start remaining ce)) := by
  simp only [genericBranch]
  repeat' split
  all_goals simp only [branchOutEngine]
  all_goals
    first
    | exact genericElementUpdate_fst_EngOk _ _ _ _ _ _ h
    | exact EngOk_rawText _ _ _ (genericElementUpdate_fst_EngOk _ _ _ _ _ _ h)

theorem extractBranch_EngOk (ip : List Nat → Nat → Nat → Engine × Option (List Nat))
    (buf : List Nat) (endSent : Nat) (st : Engine) (start : Nat) (endp : Option Nat)
    (h : EngOk st) :
    EngOk (branchOutEngine (extractBranch ip buf endSent st start endp)) := by
  rw [extractBranch]
  by_cases hc1 : 4 ≤ endSent - start ∧ wat buf start = 60 ∧ wat buf (start + 1) = 33 ∧
      wat buf (start + 2) = 45 ∧ wat buf (start + 3) = 45
  · rw [if_pos hc1]
    cases hw : wcsstr buf start (wstr "-->") with
    | none => exact h
    | some e => exact h
  rw [if_neg hc1]
  by_cases hc2 : stricmpEq (get_element_name buf (start + 1) false) (wstr "script") = true
  · rw [if_pos hc2]; exact EngOk_skipOut _ _ h
  rw [if_neg hc2]
  by_cases hc3 : stricmpEq (get_element_name buf (start + 1) false) (wstr "noscript") = true
  · rw [if_pos hc3]; exact EngOk_skipOut _ _ h
  rw [if_neg hc3]
  by_cases hc4 : stricmpEq (get_element_name buf (start + 1) false) (wstr "annotation") = true
  · rw [if_pos hc4]; exact EngOk_skipOut _ _ h
  rw [if_neg hc4]
  by_cases hc5 : stricmpEq (get_element_name buf (start + 1) false)
      (wstr "annotation-xml") = true
  · rw [if_pos hc5]; exact EngOk_skipOut _ _ h
  rw [if_neg hc5]
  by_cases hc6 : stricmpEq (get_element_name buf (start + 1) false) (wstr "style") = true
  · rw [if_pos hc6]; exact EngOk_skipOut _ _ h
  rw [if_neg hc6]
  by_cases hc7 : stricmpEq (get_element_name buf (start + 1) false) (wstr "meta") = true
  · rw [if_pos hc7]; exact metaBranch_EngOk _ _ _ _ _ h
  rw [if_neg hc7]
  by_cases hc8 : stricmpEq (get_element_name buf (start + 1) false) (wstr "title") = true
  · rw [if_pos hc8]; exact titleBranch_EngOk _ _ _ _ _ h
  rw [if_neg hc8]
  by_cases hc9 : stricmpEq (get_element_name buf (start + 1) false) (wstr "subject") = true
  · rw [if_pos hc9]; exact subjectBranch_EngOk _ _ _ _ _ h
  rw [if_neg hc9]
  by_cases hc10 : (2 ≤ endSent - start ∧ wat buf start = 60 ∧
      iswspaceW (wat buf (start + 1))) ∨
      (7 ≤ endSent - start ∧ wat buf start = 60 ∧ wat buf (start + 1) = 38 ∧
       (wat buf (start + 2) = 110 ∨ wat buf (start + 2) = 78) ∧
       (wat buf (start + 3) = 98 ∨ wat buf (start + 3) = 66) ∧
       (wat buf (start + 4) = 115 ∨ wat buf (start + 4) = 83) ∧
       (wat buf (start + 5) = 112 ∨ wat buf (start + 5) = 80) ∧
       wat buf (start + 6) = 59)
  · rw [if_pos hc10]; exact strayLtBranch_EngOk _ _ _ _ h
  rw [if_neg hc10]
  by_cases hc11 : stricmpEq ((get_element_name buf (start + 1) false).take 8)
      (wstr "![CDATA[") = true
  · rw [if_pos hc11]; exact cdataBranch_EngOk _ _ _ _ h
  rw [if_neg hc11]
  exact genericBranch_EngOk _ _ _ _ _ _ h

theorem extractFinish_EngOk (buf : List Nat) (endSent : Nat) (io : Bool) (st : Engine)
    (endp : Option Nat) (h : EngOk st) : EngOk (extractFinish buf endSent io st endp) := by
  unfold extractFinish
  split
  · exact EngOk_mark h
  split
  · exact EngOk_rawText _ _ _ (EngOk_mark h)
  · exact EngOk_mark h

theorem EngOk_closeTagDec (buf : List Nat) (ns : Nat) {st3 : Engine} (h : EngOk st3) :
    EngOk (if matchListAtCI buf ns (wstr "</pre>") then
        if st3.preformatted > 0 then { st3 with preformatted := st3.preformatted - 1 }
        else st3
      else if matchListAtCI buf ns (wstr "</sup>") then
        if st3.superscript > 0 then { st3 with superscript := st3.superscript - 1 }
        else st3
      else if matchListAtCI buf ns (wstr "</sub>") then
        if st3.subscript > 0 then { st3 with subscript := st3.subscript - 1 }
        else st3
      else st3) := by
  obtain ⟨⟨a, b, c⟩, h2⟩ := h
  repeat' split
  all_goals
    refine ⟨⟨?_, ?_, ?_⟩, h2⟩ <;>
      first
      | exact a
      | exact b
      | exact c
      | exact show (0 : Int) ≤ st3.preformatted - 1 by omega
      | exact show (0 : Int) ≤ st3.superscript - 1 by omega
      | exact show (0 : Int) ≤ st3.subscript - 1 by omega

theorem extractLoopF_EngOk (fuel : Nat) : ∀ (buf : List Nat) (endSent : Nat) (io : Bool)
    (st : Engine) (start : Nat) (endp : Option Nat), EngOk st →
    EngOk (extractLoopF fuel buf endSent io st start endp) := by
  induction fuel with
  | zero =>
    intro buf endSent io st start endp h
    exact extractFinish_EngOk _ _ _ _ _ h
  | succ fuel ih =>
    intro buf endSent io st start endp h
    rw [extractLoopF]
    by_cases hlt : start < endSent
    · rw [if_pos hlt]
      have hb := extractBranch_EngOk
        (fun cbuf cpos clen =>
          extractPrologue (extractLoopF fuel) (some (cbuf, cpos)) clen true false)
        buf endSent st.markCounters start endp (EngOk_mark h)
      cases hbr : extractBranch
          (fun cbuf cpos clen =>
            extractPrologue (extractLoopF fuel) (some (cbuf, cpos)) clen true false)
          buf endSent st.markCounters start endp with
      | halt st1 ep =>
        rw [hbr] at hb
        exact extractFinish_EngOk _ _ _ _ _ hb
      | cont st1 s1 ep =>
        rw [hbr] at hb
        exact ih buf endSent io st1 s1 ep hb
      | fall st1 isSym e =>
        rw [hbr] at hb
        simp only []
        cases hn : wcschr buf e 60 with
        | none => exact extractFinish_EngOk _ _ _ _ _ hb
        | some ns =>
          simp only []
          by_cases hge : ns ≥ endSent
          · rw [if_pos hge]
            exact extractFinish_EngOk _ _ _ _ _ hb
          · rw [if_neg hge]
            refine ih buf endSent io _ ns (some e) ?_
            refine EngOk_closeTagDec buf ns ?_
            split
            · exact EngOk_snapUpdate _ _ (EngOk_rawText _ _ _ hb)
            · exact EngOk_rawText _ _ _ hb
    · rw [if_neg hlt]
      exact extractFinish_EngOk _ _ _ _ _ h

theorem EngOk_initial (pn : Bool) : EngOk (initialEngine pn) := by
  cases pn <;> simp [EngOk, initialEngine]

theorem extractRun_EngOk (fuel : Nat) (prior : Engine) (html : Option (List Nat × Nat))
    (textLength : Nat) (io pn : Bool) :
    EngOk (extractRun fuel prior html textLength io pn).1 := by
  rw [extractRun, extractPrologue.eq_def]
  cases html with
  | none => exact EngOk_initial pn
  | some p =>
    obtain ⟨buf, pos⟩ := p
    simp only []
    by_cases h0 : wat buf pos = 0 ∨ textLength = 0
    · rw [if_pos h0]; exact EngOk_initial pn
    · rw [if_neg h0]
      cases hs : wcschr buf pos 60 with
      | none =>
        simp only []
        split
        · exact EngOk_rawText _ _ _ (EngOk_initial pn)
        · exact EngOk_initial pn
      | some s =>
        simp only []
        refine extractLoopF_EngOk fuel buf (pos + textLength) io _ s none ?_
        split
        · exact EngOk_rawText _ _ _ (EngOk_initial pn)
        · exact EngOk_initial pn

/-- C4: the three nesting counters (`preformatted`, `superscript`,
`subscript`) recorded at every iteration of the main extraction loop are
never negative: every closing-tag decrement is guarded by a positivity
test, so the counters cannot be driven below zero even by unbalanced
closing tags. -/
theorem claim4_counters_nonneg (fuel : Nat) (prior : Engine)
    (html : Option (List Nat × Nat)) (textLength : Nat) (io pn : Bool) :
    ∀ t ∈ (extractRun fuel prior html textLength io pn).1.counters,
      0 ≤ t.1 ∧ 0 ≤ t.2.1 ∧ 0 ≤ t.2.2 :=
  (extractRun_EngOk fuel prior html textLength io pn).2

theorem claim4_counters_nonneg_witness :
    (((0 : Int), (0 : Int), (0 : Int)) ∈
      (extractRun 20 (initialEngine false) (some (wstr "<b>x</b>", 0)) 9
        true false).1.counters) ∧
    (0 ≤ ((0 : Int), (0 : Int), (0 : Int)).1 ∧
     0 ≤ ((0 : Int), (0 : Int), (0 : Int)).2.1 ∧
     0 ≤ ((0 : Int), (0 : Int), (0 : Int)).2.2) :=
  ⟨by decide,
   claim4_counters_nonneg 20 (initialEngine false) (some (wstr "<b>x</b>", 0)) 9
     true false ((0 : Int), (0 : Int), (0 : Int)) (by decide)⟩

/-- C2: a call of the primary entry point on a null text pointer, on text
whose first character is the NUL terminator, or with a zero length returns
the null pointer (`none`), and the output buffer stays empty (filtered
length zero).  The embedding is total, so no exception can be raised. -/
theorem claim2_invalid_input (fuel : Nat) (prior : Engine)
    (html : Option (List Nat × Nat)) (textLength : Nat) (io pn : Bool)
    (h : html = none ∨
      ∃ buf pos, html = some (buf, pos) ∧ (wat buf pos = 0 ∨ textLength = 0)) :
    (extractRun fuel prior html textLength io pn).2 = none ∧
    (extractRun fuel prior html textLength io pn).1.buffer = [] := by
  rcases h with rfl | ⟨buf, pos, rfl, h0⟩
  · exact ⟨rfl, rfl⟩
  · have he : extractRun fuel prior (some (buf, pos)) textLength io pn =
        (initialEngine pn, none) := by
      rw [extractRun, extractPrologue.eq_def]
      simp only []
      rw [if_pos h0]
    rw [he]
    exact ⟨rfl, rfl⟩

theorem claim2_invalid_input_witness :
    (extractRun 1 (initialEngine false) none 5 true false).2 = none ∧
    (extractRun 1 (initialEngine false) none 5 true false).1.buffer = [] :=
  claim2_invalid_input 1 (initialEngine false) none 5 true false (Or.inl rfl)

/-- C9: the extraction is deterministic and independent of any engine state
left over from a previous call: two runs on the same input buffer, length
and flags produce identical results (returned text, output buffer and all
five metadata fields), whatever states the two engines were in before. -/
theorem claim9_deterministic (fuel : Nat) (e1 e2 : Engine)
    (html : Option (List Nat × Nat)) (textLength : Nat) (io pn : Bool) :
    extractRun fuel e1 html textLength io pn =
      extractRun fuel e2 html textLength io pn := rfl

set_option maxRecDepth 10000 in
/-- C1 counterexample: on a document with two `<meta name="author">`
elements (contents `A` then `B`) the stored author is `B`, the value of the
LAST occurrence — the first occurrence does not win as claimed. -/
theorem claim1_first_write_counterexample :
    (extractRun 100 (initialEngine false)
      (some (wstr "<meta name=\"author\" content=\"A\"><meta name=\"author\" content=\"B\">",
        0)) 64 true false).1.author = wstr "B" ∧
    wstr "B" ≠ wstr "A" := by decide

set_option maxRecDepth 10000 in
/-- C1 (amended): the metadata fields are cleared at the start of each
top-level call (so the result is independent of the prior engine state),
and every qualifying occurrence stores into its field unconditionally, so
with several occurrences the LAST one wins: `A` then `B` stores `B`, `B`
then `A` stores `A`, a single occurrence stores its own value, a document
without the field leaves it empty, and a second `<title>` overwrites the
first. -/
theorem claim1_metadata_last_write (prior : Engine) :
    (extractRun 100 prior
      (some (wstr "<meta name=\"author\" content=\"A\"><meta name=\"author\" content=\"B\">",
        0)) 64 true false).1.author = wstr "B" ∧
    (extractRun 100 prior
      (some (wstr "<meta name=\"author\" content=\"B\"><meta name=\"author\" content=\"A\">",
        0)) 64 true false).1.author = wstr "A" ∧
    (extractRun 100 prior
      (some (wstr "<meta name=\"author\" content=\"A\">", 0)) 32 true false).1.author =
      wstr "A" ∧
    (extractRun 100 prior
      (some (wstr "<b>x</b>", 0)) 9 true false).1.author = [] ∧
    (extractRun 100 prior
      (some (wstr "<title>First</title><title>Second</title>", 0)) 41
      true false).1.title = wstr "Second" := by
  have hp : extractRun 100 prior = extractRun 100 (initialEngine false) := rfl
  rw [hp]
  decide

theorem pfx_emit (st : Engine) (cs : List Nat) : st.buffer <+: (st.emit cs).buffer :=
  List.prefix_append _ _

theorem pfx_rawText (st : Engine) (buf : List Nat) (p s : Nat) :
    st.buffer <+: (st.rawText buf p s).buffer :=
  List.prefix_append _ _

theorem pfx_rawTextPre (st : Engine) (buf : List Nat) (p s : Nat) :
    st.buffer <+: (st.rawTextPreformatted buf p s).buffer :=
  List.prefix_append _ _

theorem pfx_extractFinish (buf : List Nat) (endSent : Nat) (io : Bool) (st : Engine)
    (endp : Option Nat) : st.buffer <+: (extractFinish buf endSent io st endp).buffer := by
  unfold extractFinish
  split
  · exact List.prefix_refl _
  split
  · exact pfx_rawText _ _ _ _
  · exact List.prefix_refl _

theorem pfx_skipOut (st : Engine) (endp : Option Nat) (ts : TagSkip) :
    st.buffer <+: (branchOutEngine (ts.out st endp)).buffer := by
  cases ts <;> exact List.prefix_refl _

theorem pfx_metaBranch (ip : List Nat → Nat → Nat → Engine × Option (List Nat))
    (buf : List Nat) (st : Engine) (start : Nat) (endp : Option Nat) :
    st.buffer <+: (branchOutEngine (metaBranch ip buf st start endp)).buffer := by
  simp only [metaBranch]
  repeat' split
  all_goals simp only [branchOutEngine]
  all_goals exact List.prefix_refl _

theorem pfx_titleBranch (ip : List Nat → Nat → Nat → Engine × Option (List Nat))
    (buf : List Nat) (st : Engine) (start : Nat) (endp : Option Nat) :
    st.buffer <+: (branchOutEngine (titleBranch ip buf st start endp)).buffer := by
  simp only [titleBranch]
  repeat' split
  all_goals simp only [branchOutEngine]
  all_goals exact List.prefix_refl _

theorem pfx_subjectBranch (ip : List Nat → Nat → Nat → Engine × Option (List Nat))
    (buf : List Nat) (st : Engine) (start : Nat) (endp : Option Nat) :
    st.buffer <+: (branchOutEngine (subjectBranch ip buf st start endp)).buffer := by
  simp only [subjectBranch]
  repeat' split
  all_goals simp only [branchOutEngine]
  all_goals exact List.prefix_refl _

theorem pfx_strayLtBranch (buf : List Nat) (endSent : Nat) (st : Engine) (start : Nat) :
    st.buffer <+: (branchOutEngine (strayLtBranch buf endSent st start)).buffer := by
  simp only [strayLtBranch]
  repeat' split
  all_goals simp only [branchOutEngine]
  all_goals exact pfx_rawText _ _ _ _

theorem pfx_cdataBranch (buf : List Nat) (endSent : Nat) (st : Engine) (start : Nat) :
    st.buffer <+: (branchOutEngine (cdataBranch buf endSent st start)).buffer := by
  simp only [cdataBranch]
  repeat' split
  all_goals simp only [branchOutEngine]
  all_goals
    first
    | exact pfx_rawTextPre _ _ _ _
    | exact pfx_emit _ _

theorem pfx_genericElementUpdate (buf : List Nat) (endSent : Nat) (st : Engine)
    (start remaining : Nat) (ce : List Nat) :
    st.buffer <+: (genericElementUpdate buf endSent st start remaining ce).1.buffer := by
  rw [genericElementUpdate]
  by_cases h1 : stricmpEq ce (wstr "pre") = true
  · rw [if_pos h1]
  rw [if_neg h1]
  by_cases h2 : stricmpEq ce (wstr "sup") = true
  · rw [if_pos h2]
  rw [if_neg h2]
  by_cases h3 : stricmpEq ce (wstr "sub") = true
  · rw [if_pos h3]
  rw [if_neg h3]
  by_cases h4 : isNewParagraphElement ce = true
  · rw [if_pos h4]
    simp only []
    split
    · exact (pfx_emit _ _).trans (pfx_emit _ _)
    · exact pfx_emit _ _
  rw [if_neg h4]
  by_cases h5 : stricmpEq ce (wstr "br") = true
  · rw [if_pos h5]; exact pfx_emit _ _
  rw [if_neg h5]
  by_cases h6 : 3 ≤ remaining ∧ wat buf start = 60 ∧ wat buf (start + 1) = 47
  · rw [if_pos h6]
    split
    · exact pfx_emit _ _
    · exact List.prefix_refl _
  rw [if_neg h6]
  by_cases h7 : stricmpEq ce (wstr "li") = true
  · rw [if_pos h7]; exact pfx_emit _ _
  rw [if_neg h7]
  by_cases h8 : stricmpEq ce (wstr "td") = true
  · rw [if_pos h8]; exact pfx_emit _ _
  rw [if_neg h8]
  by_cases h9 : stricmpEq ce (wstr "dd") = true
  · rw [if_pos h9]; exact pfx_emit _ _
  rw [if_neg h9]
  by_cases h10 : stricmpEq ce (wstr "a") = true
  · rw [if_pos h10]
    simp only []
    repeat' split
    all_goals
      first
      | exact List.prefix_refl _
      | exact pfx_emit _ _
      | exact (pfx_emit _ _).trans (pfx_emit _ _)
  rw [if_neg h10]
  by_cases h11 : stricmpEq ce (wstr "span") = true
  · rw [if_pos h11]
    simp only []
    repeat' split
    all_goals
      first
      | exact List.prefix_refl _
      | exact pfx_emit _ _
      | exact (pfx_emit _ _).trans (pfx_emit _ _)
  rw [if_neg h11]

theorem pfx_genericBranch (buf : List Nat) (endSent : Nat) (st : Engine)
    (start remaining : Nat) (ce : List Nat) :
    st.buffer <+: (branchOutEngine (genericBranch buf endSent st start remaining ce)).buffer := by
  simp only [genericBranch]
  repeat' split
  all_goals simp only [branchOutEngine]
  all_goals
    first
    | exact pfx_genericElementUpdate _ _ _ _ _ _
    | exact (pfx_genericElementUpdate _ _ _ _ _ _).trans (pfx_rawText _ _ _ _)

theorem pfx_extractBranch (ip : List Nat → Nat → Nat → Engine × Option (List Nat))
    (buf : List Nat) (endSent : Nat) (st : Engine) (start : Nat) (endp : Option Nat) :
    st.buffer <+: (branchOutEngine (extractBranch ip buf endSent st start endp)).buffer := by
  rw [extractBranch]
  by_cases hc1 : 4 ≤ endSent - start ∧ wat buf start = 60 ∧ wat buf (start + 1) = 33 ∧
      wat buf (start + 2) = 45 ∧ wat buf (start + 3) = 45
  · rw [if_pos hc1]
    cases hw : wcsstr buf start (wstr "-->") with
    | none => exact List.prefix_refl _
    | some e => exact List.prefix_refl _
  rw [if_neg hc1]
  by_cases hc2 : stricmpEq (get_element_name buf (start + 1) false) (wstr "script") = true
  · rw [if_pos hc2]; exact pfx_skipOut _ _ _
  rw [if_neg hc2]
  by_cases hc3 : stricmpEq (get_element_name buf (start + 1) false) (wstr "noscript") = true
  · rw [if_pos hc3]; exact pfx_skipOut _ _ _
  rw [if_neg hc3]
  by_cases hc4 : stricmpEq (get_element_name buf (start + 1) false) (wstr "annotation") = true
  · rw [if_pos hc4]; exact pfx_skipOut _ _ _
  rw [if_neg hc4]
  by_cases hc5 : stricmpEq (get_element_name buf (start + 1) false)
      (wstr "annotation-xml") = true
  · rw [if_pos hc5]; exact pfx_skipOut _ _ _
  rw [if_neg hc5]
  by_cases hc6 : stricmpEq (get_element_name buf (start + 1) false) (wstr "style") = true
  · rw [if_pos hc6]; exact pfx_skipOut _ _ _
  rw [if_neg hc6]
  by_cases hc7 : stricmpEq (get_element_name buf (start + 1) false) (wstr "meta") = true
  · rw [if_pos hc7]; exact pfx_metaBranch _ _ _ _ _
  rw [if_neg hc7]
  by_cases hc8 : stricmpEq (get_element_name buf (start + 1) false) (wstr "title") = true
  · rw [if_pos hc8]; exact pfx_titleBranch _ _ _ _ _
  rw [if_neg hc8]
  by_cases hc9 : stricmpEq (get_element_name buf (start + 1) false) (wstr "subject") = true
  · rw [if_pos hc9]; exact pfx_subjectBranch _ _ _ _ _
  rw [if_neg hc9]
  by_cases hc10 : (2 ≤ endSent - start ∧ wat buf start = 60 ∧
      iswspaceW (wat buf (start + 1))) ∨
      (7 ≤ endSent - start ∧ wat buf start = 60 ∧ wat buf (start + 1) = 38 ∧
       (wat buf (start + 2) = 110 ∨ wat buf (start + 2) = 78) ∧
       (wat buf (start + 3) = 98 ∨ wat buf (start + 3) = 66) ∧
       (wat buf (start + 4) = 115 ∨ wat buf (start + 4) = 83) ∧
       (wat buf (start + 5) = 112 ∨ wat buf (start + 5) = 80) ∧
       wat buf (start + 6) = 59)
  · rw [if_pos hc10]; exact pfx_strayLtBranch _ _ _ _
  rw [if_neg hc10]
  by_cases hc11 : stricmpEq ((get_element_name buf (start + 1) false).take 8)
      (wstr "![CDATA[") = true
  · rw [if_pos hc11]; exact pfx_cdataBranch _ _ _ _
  rw [if_neg hc11]
  exact pfx_genericBranch _ _ _ _ _ _

theorem buffer_closeTagDec (buf : List Nat) (ns : Nat) (st3 : Engine) :
    (if matchListAtCI buf ns (wstr "</pre>") then
        if st3.preformatted > 0 then { st3 with preformatted := st3.preformatted - 1 }
        else st3
      else if matchListAtCI buf ns (wstr "</sup>") then
        if st3.superscript > 0 then { st3 with superscript := st3.superscript - 1 }
        else st3
      else if matchListAtCI buf ns (wstr "</sub>") then
        if st3.subscript > 0 then { st3 with subscript := st3.subscript - 1 }
        else st3
      else st3).buffer = st3.buffer := by
  repeat' split
  all_goals rfl

theorem pfx_symbolStep (st1 st2 : Engine) (isSym : Bool) (lg : List (List Nat))
    (h12 : st1.buffer <+: st2.buffer) :
    st1.buffer <+: (if isSym = true then
        Engine.snap { st2 with
          buffer := st2.buffer.take st1.buffer.length ++
            convert_symbol_font_section (st2.buffer.drop st1.buffer.length),
          log := lg }
      else st2).buffer := by
  split
  · show st1.buffer <+: List.take st1.buffer.length st2.buffer ++
      convert_symbol_font_section (List.drop st1.buffer.length st2.buffer)
    rw [← List.prefix_iff_eq_take.mp h12]
    exact List.prefix_append _ _
  · exact h12

theorem extractLoopF_pfx (fuel : Nat) : ∀ (buf : List Nat) (endSent : Nat) (io : Bool)
    (st : Engine) (start : Nat) (endp : Option Nat),
    st.buffer <+: (extractLoopF fuel buf endSent io st start endp).buffer := by
  induction fuel with
  | zero =>
    intro buf endSent io st start endp
    exact pfx_extractFinish _ _ _ _ _
  | succ fuel ih =>
    intro buf endSent io st start endp
    rw [extractLoopF]
    by_cases hlt : start < endSent
    · rw [if_pos hlt]
      have hb := pfx_extractBranch
        (fun cbuf cpos clen =>
          extractPrologue (extractLoopF fuel) (some (cbuf, cpos)) clen true false)
        buf endSent st.markCounters start endp
      cases hbr : extractBranch
          (fun cbuf cpos clen =>
            extractPrologue (extractLoopF fuel) (some (cbuf, cpos)) clen true false)
          buf endSent st.markCounters start endp with
      | halt st1 ep =>
        rw [hbr] at hb
        exact hb.trans (pfx_extractFinish _ _ _ _ _)
      | cont st1 s1 ep =>
        rw [hbr] at hb
        exact hb.trans (ih buf endSent io st1 s1 ep)
      | fall st1 isSym e =>
        rw [hbr] at hb
        simp only []
        cases hn : wcschr buf e 60 with
        | none => exact hb.trans (pfx_extractFinish _ _ _ _ _)
        | some ns =>
          simp only []
          by_cases hge : ns ≥ endSent
          · rw [if_pos hge]
            exact hb.trans (pfx_extractFinish _ _ _ _ _)
          · rw [if_neg hge]
            refine List.IsPrefix.trans ?_ (ih buf endSent io _ ns (some e))
            rw [buffer_closeTagDec]
            exact hb.trans (pfx_symbolStep st1 _ isSym _ (pfx_rawText _ _ _ _))
    · rw [if_neg hlt]
      exact pfx_extractFinish _ _ _ _ _

/-- C8 counterexample: on `<font face="Symbol">a</font>` the first recorded
buffer snapshot is `[97]` (`"a"`) and the next is `[945]` (`"α"`): the
Symbol-font post-processing truncates the section just written and
replaces it, so an intermediate buffer content is NOT a prefix of a later
one. -/
theorem claim8_prefix_counterexample :
    (extractRun 50 (initialEngine false)
      (some (wstr "<font face=\"Symbol\">a</font>", 0)) 28 true false).1.snaps =
      [[97], [945]] ∧
    List.isPrefixOf [97] [945] = false := by decide

/-- C8 (amended): across loop iterations the output buffer only grows —
the buffer of any loop state is a prefix of the buffer of the final state
reached from it (and each call starts from an empty buffer).  Within one
iteration, however, the Symbol-font post-processing may rewrite the
just-appended section in place, so intermediate contents inside an
iteration need not be prefixes of later ones. -/
theorem claim8_buffer_growth (fuel : Nat) (buf : List Nat) (endSent : Nat) (io : Bool)
    (st : Engine) (start : Nat) (endp : Option Nat) :
    st.buffer <+: (extractLoopF fuel buf endSent io st start endp).buffer :=
  extractLoopF_pfx fuel buf endSent io st start endp

/-- C6: URL resolution against the root `http://a.com/x/y.html` classifies
the relative path by its prefix: the parent-relative `../z.html` walks back
one path segment and resolves to `http://a.com/z.html`, the
current-directory-relative `./z.html` strips the redundant prefix and
resolves to `http://a.com/x/z.html`, and the root-relative `/abs.html` is
appended to the full domain, resolving to `http://a.com/abs.html`. -/
theorem claim6_url_resolution :
    html_url_resolve (html_url_format_init (wstr "http://a.com/x/y.html"))
        (some (wstr "../z.html")) 9 false = some (wstr "http://a.com/z.html") ∧
    html_url_resolve (html_url_format_init (wstr "http://a.com/x/y.html"))
        (some (wstr "./z.html")) 8 false = some (wstr "http://a.com/x/z.html") ∧
    html_url_resolve (html_url_format_init (wstr "http://a.com/x/y.html"))
        (some (wstr "/abs.html")) 9 false = some (wstr "http://a.com/abs.html") := by
  decide

end HtmlExtract
